import Mathlib

/-!
Verification of the gsrb layout-matching and repair engine.

This file gives a shallow embedding, in Lean 4, of the parts of the gsrb
source that the specification claims talk about:

* the XML node model and the bounds parser (gsrb/utils/element.py),
* the node predicates (gsrb/match/predictors.py),
* preprocessing (gsrb/match/preprocess.py),
* layout construction (gsrb/match/layout.py),
* the matching pipeline (gsrb/match/match.py),
* criteria and locators (gsrb/common/criterion.py, gsrb/common/locator.py),
* test-case loading (gsrb/common/step.py),
* the single-step match of the repair driver (gsrb/repair/repair.py).

Python strings are modelled as Lean strings restricted to the ASCII
behaviour of strip, lower and the whitespace class of the re module.
Python dicts and sets keyed by Element objects are modelled as association
lists keyed by a per-node identifier (nid); iteration order of Python sets
is unspecified in the source, document order is used here.  Python floats
are modelled as rationals.  Device and OpenCV effects are inputs.
-/

/-! ## Python string primitives -/

/-- Whitespace class of the Python re module for ASCII input. -/
def pyIsSpace (c : Char) : Bool :=
  c = ' ' || c = '\t' || c = '\n' || c = '\x0d' || c = '\x0b' || c = '\x0c'

/-- Model of str.strip for ASCII whitespace. -/
def pyStrip (l : List Char) : List Char :=
  ((l.dropWhile pyIsSpace).reverse.dropWhile pyIsSpace).reverse

/-- Model of str.lower for ASCII letters. -/
def pyLower (l : List Char) : List Char :=
  l.map Char.toLower

/-- Replace every maximal run of whitespace by one space; this is the
model of re.sub of a whitespace-plus pattern with a single space. -/
def collapseWs : Bool → List Char → List Char
  | _, [] => []
  | prev, c :: cs =>
      if pyIsSpace c then
        if prev then collapseWs true cs else ' ' :: collapseWs true cs
      else c :: collapseWs false cs

/-- Normalisation used by attr_equal and attr_like after the emptiness
check: collapse whitespace runs, then strip. -/
def collapseStrip (l : List Char) : List Char :=
  pyStrip (collapseWs false l)

/-- Digit test. -/
def isDigitCh (c : Char) : Bool := '0' ≤ c && c ≤ '9'

/-- Numeric value of a digit list. -/
def digitsVal (l : List Char) : Nat :=
  l.foldl (fun a c => a * 10 + (c.toNat - 48)) 0

/-- Decimal digits of a natural number, via explicit fuel so that the
definition reduces in the kernel. -/
def natDigits : Nat → Nat → List Char
  | 0, _ => []
  | fuel + 1, n =>
      if n < 10 then [Char.ofNat (n + 48)]
      else natDigits fuel (n / 10) ++ [Char.ofNat (n % 10 + 48)]

/-- Model of the Python str function on int. -/
def intToStr (i : Int) : String :=
  match i with
  | .ofNat n => String.mk (natDigits (n + 1) n)
  | .negSucc m => String.mk ('-' :: natDigits (m + 2) (m + 1))

/-- Model of the Python int function on strings of an optional sign and
digits; other inputs do not occur on preprocessed attributes and are
mapped to 0 here. -/
def strToInt (s : String) : Int :=
  match s.data with
  | '-' :: rest => if rest ≠ [] && rest.all isDigitCh then -(digitsVal rest : Int) else 0
  | l => if l ≠ [] && l.all isDigitCh then (digitsVal l : Int) else 0

/-! ## XML tree model

An Element carries a tag, attributes and children.  The extra field nid
models Python object identity: two Element objects at different tree
positions are different dict keys even when structurally equal. -/

mutual
inductive XTree where
  | mk (nid : Nat) (tag : String) (attrs : List (String × String)) (kids : XKids)
inductive XKids where
  | nil
  | cons (t : XTree) (ts : XKids)
end

deriving instance DecidableEq for XTree

deriving instance DecidableEq for Except

def XTree.nid : XTree → Nat | .mk i _ _ _ => i

def XTree.tag : XTree → String | .mk _ tg _ _ => tg

def XTree.attrs : XTree → List (String × String) | .mk _ _ a _ => a

def XTree.kids : XTree → XKids | .mk _ _ _ ks => ks

def XKids.toList : XKids → List XTree
  | .nil => []
  | .cons t ts => t :: XKids.toList ts

def XKids.ofList : List XTree → XKids
  | [] => .nil
  | t :: ts => .cons t (XKids.ofList ts)

/-- Number of direct children; the model of len applied to an Element. -/
def XTree.numKids (t : XTree) : Nat := t.kids.toList.length

/-- Lookup in an attribute list. -/
def aGet (a : List (String × String)) (k : String) : Option String :=
  (a.find? (fun p => p.fst = k)).map Prod.snd

/-- Attribute lookup returning an Option; the model of Element.get with
no default, which yields None for a missing attribute. -/
def attrOpt (t : XTree) (k : String) : Option String :=
  aGet t.attrs k

/-- Attribute lookup with a default; the model of Element.get(k, d). -/
def attrD (t : XTree) (k : String) (d : String) : String :=
  (attrOpt t k).getD d

/-- Update one attribute in an attribute list, keeping the position of an
existing key, as Python dict assignment does. -/
def attrsSet (a : List (String × String)) (k v : String) : List (String × String) :=
  if a.any (fun p => p.fst = k) then
    a.map (fun p => if p.fst = k then (k, v) else p)
  else a ++ [(k, v)]

/-- Set an attribute on a node. -/
def XTree.setAttr (t : XTree) (k v : String) : XTree :=
  .mk t.nid t.tag (attrsSet t.attrs k v) t.kids

/-- Set several attributes on a node, in order. -/
def XTree.setAttrs (t : XTree) (kvs : List (String × String)) : XTree :=
  kvs.foldl (fun t p => t.setAttr p.fst p.snd) t

mutual
/-- Document-order traversal of every element with tag node, the model of
Element.iter applied to the tag node; includes the element itself when it
has the tag. -/
def XTree.iterNodes : XTree → List XTree
  | .mk i tg a ks =>
      (if tg = "node" then [XTree.mk i tg a ks] else []) ++ XKids.iterNodes ks
def XKids.iterNodes : XKids → List XTree
  | .nil => []
  | .cons t ts => XTree.iterNodes t ++ XKids.iterNodes ts
end

/-! ## Bounds parser (gsrb/utils/element.py) -/

structure Coordinate where
  x0 : Int := 0
  y0 : Int := 0
  x1 : Int := 0
  y1 : Int := 0
deriving DecidableEq, Repr

/-- Read one nonempty digit run. -/
def takeDigits (l : List Char) : Option (Nat × List Char) :=
  match l.span isDigitCh with
  | (ds, rest) => if ds = [] then none else some (digitsVal ds, rest)

def expectCh (c : Char) (l : List Char) : Option (List Char) :=
  match l with
  | x :: rest => if x = c then some rest else none
  | [] => none

/-- Parser for the bound pattern of element.py: optional whitespace, an
open bracket, digits, optional whitespace, a comma, optional whitespace,
digits, a close bracket, then the same again, then optional whitespace and
the end of the string. -/
def parseBounds (s : String) : Option (Nat × Nat × Nat × Nat) := do
  let l := s.data.dropWhile pyIsSpace
  let l ← expectCh '[' l
  let (a, l) ← takeDigits l
  let l := l.dropWhile pyIsSpace
  let l ← expectCh ',' l
  let l := l.dropWhile pyIsSpace
  let (b, l) ← takeDigits l
  let l ← expectCh ']' l
  let l ← expectCh '[' l
  let (c, l) ← takeDigits l
  let l := l.dropWhile pyIsSpace
  let l ← expectCh ',' l
  let l := l.dropWhile pyIsSpace
  let (d, l) ← takeDigits l
  let l ← expectCh ']' l
  if l.dropWhile pyIsSpace = [] then some (a, b, c, d) else none

/-- Model of coordinates of element.py on a node: parse the bounds
attribute, defaulting to the zero quadruple on failure. -/
def coordinates (t : XTree) : Coordinate :=
  match parseBounds (attrD t "bounds" "[0,0][0,0]") with
  | some (a, b, c, d) => ⟨(a : Int), (b : Int), (c : Int), (d : Int)⟩
  | none => ⟨0, 0, 0, 0⟩

/-! ## Attribute predicates (gsrb/match/predictors.py) -/

/-- Model of attr_equal: read both attributes, strip and lower, fail on an
empty side, collapse whitespace runs, strip, compare. -/
def attr_equal (a b : XTree) (name1 : String) (name2 : Option String := none) : Bool :=
  let attr_a := pyLower (pyStrip (attrD a name1 "").data)
  let attr_b := pyLower (pyStrip (attrD b (name2.getD name1) "").data)
  if attr_a = [] || attr_b = [] then false
  else collapseStrip attr_a = collapseStrip attr_b

/-- Longest common subsequence length with explicit fuel, so that the
definition reduces in the kernel; every step consumes at least one list
element, so combined length suffices as fuel. -/
def lcsLenF : Nat → List Char → List Char → Nat
  | _, [], _ => 0
  | _, _, [] => 0
  | 0, _, _ => 0
  | fuel + 1, a :: as, b :: bs =>
      if a = b then 1 + lcsLenF fuel as bs
      else max (lcsLenF fuel (a :: as) bs) (lcsLenF fuel as (b :: bs))

/-- Longest common subsequence length, the combinatorial core of the indel
distance computed by Levenshtein.ratio. -/
def lcsLen (a b : List Char) : Nat :=
  lcsLenF (a.length + b.length) a b

/-- Comparison of the indel similarity of Levenshtein.ratio against the
0.70 threshold.  The ratio is 2L/(n+m) for L the longest common
subsequence length; both strings are nonempty at the call site, so the
comparison against 70/100 is stated by cross multiplication, which keeps
it in the integers. -/
def similarityAtLeast70 (a b : List Char) : Bool :=
  100 * (2 * lcsLen a b) ≥ 70 * (a.length + b.length)

/-- The resource-id prefix pattern of predictors.py matches a dotted
identifier followed by a colon, the letters id and a slash; segments are a
letter followed by letters, digits or underscores, separated by dots. -/
def isIdentSeg (l : List Char) : Bool :=
  match l with
  | [] => false
  | c :: rest => (c.isAlpha) && rest.all (fun d => d.isAlpha || isDigitCh d || d = '_')

/-- Split a list at every occurrence of a separator. -/
def splitOnCh (sep : Char) (l : List Char) : List (List Char) :=
  match l with
  | [] => [[]]
  | c :: rest =>
      let r := splitOnCh sep rest
      if c = sep then [] :: r
      else match r with
        | [] => [[c]]
        | g :: gs => (c :: g) :: gs

/-- Decide whether a string matches the dotted-identifier part of the
id pattern. -/
def isDottedIdent (l : List Char) : Bool :=
  l ≠ [] && (splitOnCh '.' l).all isIdentSeg

/-- Model of the anchored regex match of id_pattern.  The prefix part can
contain no colon, so a successful match splits at the first colon; the
content part is matched by a dot-star, which cannot cross a newline, and
the dollar anchor also accepts a position before one final newline. -/
def matchIdPattern (l : List Char) : Option (List Char) :=
  match l.span (fun c => c ≠ ':') with
  | (pre, rest) =>
      match rest with
      | ':' :: 'i' :: 'd' :: '/' :: content =>
          if isDottedIdent pre then
            if content.all (fun c => c ≠ '\n') then some content
            else match content.reverse with
              | '\n' :: revInit =>
                  let initPart := revInit.reverse
                  if initPart.all (fun c => c ≠ '\n') then some initPart else none
              | _ => none
          else none
      | _ => none

/-- Model of process_id inside attr_like: strip a package prefix from a
resource-id, returning the input unchanged when the pattern fails. -/
def process_id (s : List Char) : List Char :=
  if s = [] then s
  else match matchIdPattern s with
    | some content => content
    | none => s

/-- Model of attr_like: same normalisation as attr_equal, plus the prefix
stripping on resource-id sides, compared by similarity against the 0.70
threshold. -/
def attr_like (a b : XTree) (name1 : String) (name2 : Option String := none) : Bool :=
  let attr_a := pyLower (pyStrip (attrD a name1 "").data)
  let attr_a := if name1 = "resource-id" then process_id attr_a else attr_a
  let attr_b := pyLower (pyStrip (attrD b (name2.getD name1) "").data)
  let attr_b :=
    if (name2 = none && name1 = "resource-id") || (name2 ≠ none && name2 = some "resource-id")
    then process_id attr_b else attr_b
  if attr_a = [] || attr_b = [] then false
  else
    let ca := pyLower (collapseStrip attr_a)
    let cb := pyLower (collapseStrip attr_b)
    similarityAtLeast70 ca cb

/-- Class set recognised as list containers by is_list. -/
def listClasses : List String :=
  ["android.view.ViewGroup", "android.widget.GridView", "android.widget.ListView",
   "android.widget.FrameLayout", "android.widget.GridLayout",
   "android.widget.LinearLayout", "android.widget.RelativeLayout",
   "androidx.recyclerview.widget.RecyclerView"]

/-- Model of is_list.  The source reads the class attribute with no
default, so a missing class is never in the set. -/
def is_list (t : XTree) : Bool :=
  match attrOpt t "class" with
  | some c => listClasses.contains c
  | none => false

/-- Model of is_child on a preprocessed node. -/
def is_child (t : XTree) : Bool :=
  if t.numKids ≠ 0 then false
  else if ("com.google.android.inputmethod".data).isPrefixOf (attrD t "resource-id" "").data then false
  else if attrOpt t "w" = some "0" || attrOpt t "h" = some "0" then false
  else if strToInt (attrD t "w" "0") * strToInt (attrD t "h" "0") ≥ 1244160 then false
  else
    let notList := ! is_list t
    let hasText := attrOpt t "text" ≠ some ""
    let notEmpty := hasText || attrOpt t "content-desc" ≠ some "" || attrOpt t "resource-id" ≠ some ""
    let bigEnough := strToInt (attrD t "w" "0") ≥ 15 && strToInt (attrD t "h" "0") ≥ 15
    notList && (notEmpty || bigEnough)

/-- Model of is_parent. -/
def is_parent (t : XTree) : Bool :=
  if attrOpt t "w" = some "0" || attrOpt t "h" = some "0" then false
  else
    let notEmpty := attrD t "resource-id" "" ≠ "" || attrD t "content-desc" "" ≠ ""
    notEmpty && (t.numKids > 0 || is_list t)

/-- Model of is_cover: the centre of b lies in the rectangle of a,
inclusive on all edges.  The source compares the float centre
(x0+x1)/2 with the edges; the comparison is stated doubled, which is
equivalent and exact. -/
def is_cover (a b : XTree) : Bool :=
  let ca := coordinates a
  let cb := coordinates b
  (2 * ca.x0 ≤ cb.x0 + cb.x1 && cb.x0 + cb.x1 ≤ 2 * ca.x1) &&
  (2 * ca.y0 ≤ cb.y0 + cb.y1 && cb.y0 + cb.y1 ≤ 2 * ca.y1)

/-- Model of is_overlap.  The x-axis line of the source reads
min(ax1, ax1), the same variable twice, and is kept verbatim here. -/
def is_overlap (a b : XTree) : Bool :=
  let ca := coordinates a
  let cb := coordinates b
  let xmin := min ca.x1 ca.x1
  let xmax := max ca.x0 cb.x0
  let h_overlap := xmin > xmax
  let ymin := min ca.y1 cb.y1
  let ymax := max ca.y0 cb.y0
  let v_overlap := ymin > ymax
  h_overlap && v_overlap

/-- Model of is_match: count attr_equal over resource-id, content-desc and
text; strict needs at least two, non-strict at least one. -/
def is_match (a b : XTree) (strict : Bool := true) : Bool :=
  let results := [attr_equal a b "resource-id", attr_equal a b "content-desc",
                  attr_equal a b "text"]
  let equalNum := (results.map (fun x => if x then 1 else 0)).sum
  if strict then equalNum ≥ 2 else equalNum ≥ 1

/-- Model of is_like. -/
def is_like (a b : XTree) (strict : Bool := true) : Bool :=
  if attrD a "text" "" = "" && attrD b "text" "" = ""
      && attrD a "content-desc" "" = "" && attrD b "content-desc" "" = ""
      && attr_like a b "resource-id"
      && attrD a "class" "" = attrD b "class" ""
      && attrOpt a "class" = some "android.widget.EditText" then
    true
  else if (attr_like a b "resource-id" || ! strict)
      && (attr_like a b "text" || attr_like a b "content-desc"
          || attr_like a b "text" (some "content-desc")
          || attr_like a b "content-desc" (some "text")) then
    true
  else if (attr_equal a b "text" (some "content-desc")
            || attr_equal a b "content-desc" (some "text"))
      && attrOpt a "class" ≠ some "android.widget.RadioButton"
      && attrOpt b "class" ≠ some "android.widget.RadioButton" then
    true
  else false

/-! ## Preprocessing (gsrb/match/preprocess.py) -/

/-- Model of remove_node: on a hierarchy root, drop the direct children
satisfying the predicate. -/
def remove_node (t : XTree) (p : XTree → Bool) : XTree :=
  if t.tag = "hierarchy" then
    .mk t.nid t.tag t.attrs (XKids.ofList (t.kids.toList.filter (fun c => ! p c)))
  else t

/-- Attribute names indexed by denote_index, in the key order of its
counters dict. -/
def indexKeys : List String := ["class", "resource-id", "content-desc", "text"]

/-- Occurrence counters of denote_index: attribute name and value to
count. -/
def Counters : Type := String → String → Nat

/-- One attribute step of the denote_index body: write the 0-based
occurrence ordinal when the value is nonempty and bump the counter, and
write -1 when it is empty. -/
def diStep (st : Counters × List (String × String)) (k : String) :
    Counters × List (String × String) :=
  let cs := st.fst
  let a := st.snd
  let v := (aGet a k).getD ""
  if v ≠ "" then
    (fun k2 v2 => if k2 = k && v2 = v then cs k2 v2 + 1 else cs k2 v2,
     attrsSet a (k ++ "-index") (intToStr (cs k v)))
  else (cs, attrsSet a (k ++ "-index") (intToStr (-1)))

/-- Per-node body of denote_index: skip nodes whose resource-id starts
with com.google.android; otherwise run the attribute step for each
indexed attribute. -/
def diApply (cs : Counters) (a : List (String × String)) :
    Counters × List (String × String) :=
  let rid := (aGet a "resource-id").getD ""
  if ("com.google.android".data).isPrefixOf rid.data then (cs, a)
  else indexKeys.foldl diStep (cs, a)

mutual
/-- Model of denote_index as a stateful fold in document order over the
elements with tag node. -/
def diTree (cs : Counters) : XTree → Counters × XTree
  | .mk i tg a ks =>
      let (cs2, a2) := if tg = "node" then diApply cs a else (cs, a)
      let (cs3, ks2) := diKids cs2 ks
      (cs3, .mk i tg a2 ks2)
def diKids (cs : Counters) : XKids → Counters × XKids
  | .nil => (cs, .nil)
  | .cons t ts =>
      let (cs2, t2) := diTree cs t
      let (cs3, ts2) := diKids cs2 ts
      (cs3, .cons t2 ts2)
end

def denote_index (t : XTree) : XTree := (diTree (fun _ _ => 0) t).snd

/-- Per-node body of denote_bounds: parse bounds and write x, y, w, h. -/
def dbApply (a : List (String × String)) : List (String × String) :=
  let c := coordinates (XTree.mk 0 "node" a .nil)
  attrsSet (attrsSet (attrsSet (attrsSet a
    "x" (intToStr c.x0)) "y" (intToStr c.y0))
    "w" (intToStr (c.x1 - c.x0))) "h" (intToStr (c.y1 - c.y0))

mutual
/-- Model of denote_bounds over every element with tag node. -/
def dbTree : XTree → XTree
  | .mk i tg a ks => .mk i tg (if tg = "node" then dbApply a else a) (dbKids ks)
def dbKids : XKids → XKids
  | .nil => .nil
  | .cons t ts => .cons (dbTree t) (dbKids ts)
end

def denote_bounds (t : XTree) : XTree := dbTree t

/-- Model of preprocess: remove system UI children, denote indices, denote
bounds. -/
def preprocess (t : XTree) : XTree :=
  denote_bounds (denote_index
    (remove_node t (fun n => attrOpt n "package" = some "com.android.systemui")))

/-! ## Criterion (gsrb/common/criterion.py) -/

inductive Criterion where
  | ID
  | DESC
  | CLASS
  | TEXT
deriving DecidableEq, Repr

/-- XML attribute read by each criterion. -/
def Criterion.xmlAttr : Criterion → String
  | .ID => "resource-id"
  | .DESC => "content-desc"
  | .CLASS => "class"
  | .TEXT => "text"

/-- Enum member name, used by the locator dict form. -/
def Criterion.crName : Criterion → String
  | .ID => "ID"
  | .DESC => "DESC"
  | .CLASS => "CLASS"
  | .TEXT => "TEXT"

/-- Enum lookup by name, the model of the Criterion[k] subscript; None
models the KeyError branch. -/
def criterionFromKey (s : String) : Option Criterion :=
  if s = "ID" then some .ID
  else if s = "DESC" then some .DESC
  else if s = "CLASS" then some .CLASS
  else if s = "TEXT" then some .TEXT
  else none

/-- Model of the call form of Criterion: compare the raw attribute, read
with a None default, against the identifier by exact equality.  A missing
attribute reads as None and equals no string. -/
def criterionApply (c : Criterion) (n : XTree) (identifier : String) : Bool :=
  attrOpt n c.xmlAttr = some identifier

/-! ## Locator (gsrb/common/locator.py) -/

/-- Model of the Locator dataclass.  The criteria mapping is modelled as a
function to options; Python dict equality ignores order, which this
quotient reflects. -/
structure Locator where
  criteria : Criterion → Option String
  index : Int := 0

def criterionList : List Criterion := [.ID, .DESC, .CLASS, .TEXT]

/-- Conjunction of all criteria of a locator on one node. -/
def Locator.matches (l : Locator) (n : XTree) : Bool :=
  criterionList.all (fun c =>
    match l.criteria c with
    | some v => criterionApply c n v
    | none => true)

/-- Python list subscript semantics: nonnegative indices from the front,
negative indices from the back, an IndexError otherwise. -/
def pyListGet (l : List XTree) (i : Int) : Except Unit XTree :=
  if 0 ≤ i then
    match l[i.toNat]? with
    | some x => .ok x
    | none => .error ()
  else
    match l[((l.length : Int) + i).toNat]? with
    | some x => if (l.length : Int) + i < 0 then .error () else .ok x
    | none => .error ()

/-- Nodes of the tree satisfying every criterion, in document order. -/
def Locator.matchedIn (l : Locator) (root : XTree) : List XTree :=
  root.iterNodes.filter (fun n => l.matches n)

/-- Model of Locator.find_in_layout.  The source returns None when no node
matched or the index is at least the match count, and otherwise subscripts
the match list, which for an index below the negative length raises; the
error case models that exception. -/
def Locator.find_in_layout (l : Locator) (root : XTree) : Except Unit (Option XTree) :=
  let matched := l.matchedIn root
  if matched.length = 0 || l.index ≥ (matched.length : Int) then .ok none
  else
    match pyListGet matched l.index with
    | .ok x => .ok (some x)
    | .error _ => .error ()

/-- Singleton criteria mapping. -/
def singleCriteria (c : Criterion) (v : String) : Criterion → Option String :=
  fun c2 => if c2 = c then some v else none

/-- Model of Locator.from_node: pick the first nonempty of text,
content-desc, resource-id with its denoted index, falling back to class
with the class index. -/
def Locator.from_node (n : XTree) : Locator :=
  if attrD n "text" "" ≠ "" then
    ⟨singleCriteria .TEXT (attrD n "text" ""), strToInt (attrD n "text-index" "0")⟩
  else if attrD n "content-desc" "" ≠ "" then
    ⟨singleCriteria .DESC (attrD n "content-desc" ""), strToInt (attrD n "content-desc-index" "0")⟩
  else if attrD n "resource-id" "" ≠ "" then
    ⟨singleCriteria .ID (attrD n "resource-id" ""), strToInt (attrD n "resource-id-index" "0")⟩
  else
    ⟨singleCriteria .CLASS (attrD n "class" ""), strToInt (attrD n "class-index" "0")⟩

/-- Serialised dict form of a locator: the criteria sub-dict as name and
value pairs, and the index entry, present only when nonzero. -/
structure LocDict where
  criteria : List (String × String)
  indexEntry : Option Int

/-- Model of Locator.to_dict.  The source iterates the criteria mapping of
the instance; the enumeration order here is the fixed criterion order,
which is irrelevant to dict equality. -/
def Locator.to_dict (l : Locator) : LocDict :=
  { criteria := criterionList.filterMap (fun c => (l.criteria c).map (fun v => (c.crName, v))),
    indexEntry := if l.index = 0 then none else some l.index }

/-- Model of Locator.from_dict: look every criteria key up in the enum,
dropping unknown keys with a warning, and default the index to 0. -/
def Locator.from_dict (d : LocDict) : Locator :=
  { criteria :=
      d.criteria.foldl
        (fun f p =>
          match criterionFromKey p.fst with
          | some c => fun c2 => if c2 = c then some p.snd else f c2
          | none => f)
        (fun _ => none),
    index := d.indexEntry.getD 0 }

/-! ## Layout construction (gsrb/match/layout.py) -/

/-- Identity membership of a node in a node list, the model of the in
operator on a set of Elements. -/
def idsContain (l : List XTree) (i : Nat) : Bool :=
  l.any (fun n => n.nid = i)

/-- Lookup in an association list of node pairs keyed by node identity. -/
def pairFind (l : List (XTree × XTree)) (i : Nat) : Option XTree :=
  (l.find? (fun p => p.fst.nid = i)).map Prod.snd

/-- Key membership in an association list of node pairs. -/
def pairHasKey (l : List (XTree × XTree)) (i : Nat) : Bool :=
  l.any (fun p => p.fst.nid = i)

/-- Dict assignment on an association list of node pairs: replace the
value of an existing key in place, append otherwise. -/
def pairSet (l : List (XTree × XTree)) (k v : XTree) : List (XTree × XTree) :=
  if pairHasKey l k.nid then
    l.map (fun p => if p.fst.nid = k.nid then (p.fst, v) else p)
  else l ++ [(k, v)]

/-- Model of get_valid_node: stream the nodes in document order; a
clickable child evicts previously added children it covers; a
non-clickable child already covered by an accumulated clickable child is
skipped; every other node is added. -/
def get_valid_node (root : XTree) : List XTree :=
  root.iterNodes.foldl
    (fun result n =>
      let result :=
        if is_child n && attrOpt n "clickable" = some "true" then
          result.filter (fun x => ! (is_child x && is_cover n x))
        else result
      if is_child n && attrOpt n "clickable" = some "false" &&
          result.any (fun m =>
            is_child m && attrOpt m "clickable" = some "true" && is_cover m n) then
        result
      else result ++ [n])
    []

/-- Model of get_children. -/
def get_children (root : XTree) : List XTree :=
  (get_valid_node root).filter is_child

/-- Model of get_parents. -/
def get_parents (root : XTree) : List XTree :=
  root.iterNodes.filter is_parent

/-- Model of compress_parents: drop a parent that is a single-child
wrapper whose sole child is another parent; comparisons are by object
identity. -/
def compress_parents (parents : List XTree) : List XTree :=
  parents.filter (fun b =>
    ! parents.any (fun a =>
      a.nid ≠ b.nid && b.numKids = 1 && (b.kids.toList.map XTree.nid).head? = some a.nid))

def ridOf (c : XTree) : String := attrD c "resource-id" ""

/-- First-occurrence deduplication of a string list. -/
def dedupStr (l : List String) : List String :=
  l.foldl (fun acc s => if acc.contains s then acc else acc ++ [s]) []

/-- Model of get_list_items: group children by resource-id in first
occurrence order; keep groups with a nonempty id and at least two
members. -/
def get_list_items (children : List XTree) : List (List XTree) :=
  (dedupStr (children.map ridOf)).filterMap (fun k =>
    let v := children.filter (fun c => ridOf c = k)
    if k ≠ "" && v.length > 1 then some v else none)

/-- One mutation step of the get_non_overlap pass for one child key:
promote its chosen ancestor to the parent when the parent exists, is not
the hierarchy root, and overlaps no other chosen ancestor. -/
def noStep (cp : List (Nat × XTree)) (entries : List (XTree × XTree)) (child : XTree) :
    List (XTree × XTree) × Bool :=
  let current := (pairFind entries child.nid).getD child
  match (cp.find? (fun p => p.fst = current.nid)).map Prod.snd with
  | some nextParent =>
      if nextParent.tag ≠ "hierarchy" then
        let others := (entries.filter (fun p => p.fst.nid ≠ child.nid)).map Prod.snd
        if others.all (fun parent => ! is_overlap nextParent parent) then
          (pairSet entries child nextParent, true)
        else (entries, false)
      else (entries, false)
  | none => (entries, false)

/-- One pass of the get_non_overlap while loop over all child keys, with
mutations visible to later keys of the same pass. -/
def noPass (cp : List (Nat × XTree)) (children : List XTree)
    (entries : List (XTree × XTree)) : List (XTree × XTree) × Bool :=
  children.foldl
    (fun st c =>
      let (e2, u2) := noStep cp st.fst c
      (e2, st.snd || u2))
    (entries, false)

/-- Fuelled fixed point of the get_non_overlap passes.  Each pass that
reports an update performs at least one strict promotion along a parent
chain, so the fuel chosen by get_non_overlap reaches the fixed point. -/
def noLoop (cp : List (Nat × XTree)) (children : List XTree) :
    Nat → List (XTree × XTree) → List (XTree × XTree)
  | 0, e => e
  | fuel + 1, e =>
      let (e2, u) := noPass cp children e
      if u then noLoop cp children fuel e2 else e2

/-- Model of get_non_overlap: start from each child itself and promote to
the largest ancestor that overlaps no other chosen ancestor. -/
def get_non_overlap (children : List XTree) (cp : List (Nat × XTree)) :
    List (XTree × XTree) :=
  noLoop cp children (children.length * (cp.length + 1) + 1)
    (children.map (fun c => (c, c)))

def tripleOf (c : XTree) : String × String × String :=
  (attrD c "resource-id" "", attrD c "content-desc" "", attrD c "text" "")

/-- Model of get_non_unique: members of the group sharing their id, desc
and text triple with another member. -/
def get_non_unique (children : List XTree) : List XTree :=
  children.filter (fun c => children.countP (fun d => tripleOf d = tripleOf c) > 1)

/-- Model of get_unique_children: keep the children whose class value
occurs exactly once, by a single pass with a seen set. -/
def get_unique_children (children : List XTree) : List XTree :=
  (children.foldl
    (fun (st : List String × List XTree) child =>
      let cn := attrD child "class" ""
      if ! st.fst.contains cn then (st.fst ++ [cn], st.snd ++ [child])
      else (st.fst, st.snd.filter (fun x => attrD x "class" "" ≠ cn)))
    ([], [])).snd

/-- Model of the derived Layout structure.  The xml string and the png are
not carried: the tree is taken in parsed form, and the SIFT keypoints that
the pngs would produce are an input of match_layout. -/
structure LayoutM where
  root : XTree
  children : List XTree
  parents : List XTree
  cp : List (Nat × XTree)
  nonOverlap : List (XTree × XTree)
  nonUnique : List XTree
  uniqueChildren : List XTree

/-- Model of the Layout construction in post-init order: preprocess, then
children, parents with compression, the child-to-parent map, unique
children, and the merged list item maps. -/
def mkLayout (xml : XTree) : LayoutM :=
  let root := preprocess xml
  let children := get_children root
  let parents := compress_parents (get_parents root)
  let cp := root.iterNodes.flatMap (fun p => p.kids.toList.map (fun c => (c.nid, p)))
  let uniqueChildren := get_unique_children children
  let groups := get_list_items children
  { root := root
    children := children
    parents := parents
    cp := cp
    nonOverlap := groups.flatMap (fun g => get_non_overlap g cp)
    nonUnique := groups.flatMap get_non_unique
    uniqueChildren := uniqueChildren }

/-! ## Matching pipeline (gsrb/match/match.py) -/

/-- SIFT keypoint model: a point position in the plane.  Keypoint
positions are floats in the source and rationals here. -/
def KeyPt : Type := ℚ × ℚ

/-- Model of is_in_bound: the point lies strictly inside the denoted
rectangle of the node. -/
def is_in_bound (point : KeyPt) (node : XTree) : Bool :=
  let x := strToInt (attrD node "x" "0")
  let y := strToInt (attrD node "y" "0")
  let w := strToInt (attrD node "w" "0")
  let h := strToInt (attrD node "h" "0")
  ((x : ℚ) < point.fst && point.fst < ((x + w : Int) : ℚ)) &&
  ((y : ℚ) < point.snd && point.snd < ((y + h : Int) : ℚ))

/-- Model of the Result dataclass. -/
structure ResultM where
  score : ℚ := 0
  isMatch : Bool := false
  matched : List (XTree × XTree) := []
  possible : List (XTree × List XTree) := []
  oldNotMatched : List XTree := []
  newNotMatched : List XTree := []

/-- Model of MatchInfo: the two layouts, the consumed node set of both
sides by identity, the matched parent pairs, and the SIFT point matches,
which the source derives from the two pngs with OpenCV and which are an
input here; both pngs empty corresponds to the empty list. -/
structure MatchInfo where
  old : LayoutM
  new : LayoutM
  matched : List Nat := []
  matchedParents : List (XTree × XTree) := []
  matchedPoints : List (KeyPt × KeyPt) := []

/-- Matching state: the shared info and the growing result. -/
def MSt : Type := MatchInfo × ResultM

/-- Commit one matched pair: record it in the result and consume both
nodes. -/
def commitPair (st : MSt) (o c : XTree) : MSt :=
  ({ st.fst with matched := st.fst.matched ++ [o.nid, c.nid] },
   { st.snd with matched := st.snd.matched ++ [(o, c)] })

/-- Model of match_sibling: when both committed nodes are list items,
record their chosen ancestors as matched parents, then match remaining
siblings under those ancestors with non-strict is_match and a unique
candidate rule. -/
def match_sibling (old new : XTree) (st : MSt) : MSt :=
  let info := st.fst
  if ! (pairHasKey info.old.nonOverlap old.nid && pairHasKey info.new.nonOverlap new.nid) then st
  else
    let oldParent := (pairFind info.old.nonOverlap old.nid).getD old
    let newParent := (pairFind info.new.nonOverlap new.nid).getD new
    let st := ({ st.fst with matchedParents := pairSet st.fst.matchedParents oldParent newParent }, st.snd)
    let oldSiblings := (info.old.nonOverlap.filter
      (fun p => p.snd.nid = oldParent.nid && p.fst.nid ≠ old.nid)).map Prod.fst
    let newSiblings := (info.new.nonOverlap.filter
      (fun p => p.snd.nid = newParent.nid && p.fst.nid ≠ new.nid)).map Prod.fst
    oldSiblings.foldl
      (fun st oldSib =>
        if st.fst.matched.contains oldSib.nid then st
        else
          match newSiblings.filter (fun n =>
            ! st.fst.matched.contains n.nid && is_match oldSib n false) with
          | [c] => commitPair st oldSib c
          | _ => st)
      st

/-- One pass of the match_sure while loop: for each unconsumed candidate
of the old side, commit when exactly one unconsumed new candidate
satisfies the predicate, then propagate to siblings. -/
def matchSurePass (pred : XTree → XTree → Bool) (oldCands newCands : List XTree)
    (st : MSt) : MSt × Bool :=
  oldCands.foldl
    (fun (acc : MSt × Bool) oldChild =>
      let (st, upd) := acc
      if st.fst.matched.contains oldChild.nid then (st, upd)
      else
        match newCands.filter (fun n =>
          ! st.fst.matched.contains n.nid && pred oldChild n) with
        | [c] => (match_sibling oldChild c (commitPair st oldChild c), true)
        | _ => (st, upd))
    (st, false)

/-- Fuelled fixed point of match_sure passes; a pass that reports an
update consumes at least one old child, so the fuel used by match_sure
reaches the fixed point of the source loop. -/
def matchSureLoop (pred : XTree → XTree → Bool) (oldCands newCands : List XTree) :
    Nat → MSt → MSt
  | 0, st => st
  | fuel + 1, st =>
      let (st2, upd) := matchSurePass pred oldCands newCands st
      if upd then matchSureLoop pred oldCands newCands fuel st2 else st2

/-- Model of match_sure: candidates exclude the non-unique list items of
both sides, fixed before the loop. -/
def match_sure (pred : XTree → XTree → Bool) (st : MSt) : MSt :=
  let oldCands := st.fst.old.children.filter
    (fun n => ! idsContain st.fst.old.nonUnique n.nid)
  let newCands := st.fst.new.children.filter
    (fun n => ! idsContain st.fst.new.nonUnique n.nid)
  matchSureLoop pred oldCands newCands (st.fst.old.children.length + 1) st

/-- Classes excluded by the SIFT phase and the exploration filter. -/
def excludeClasses : List String :=
  ["android.widget.CheckBox", "android.widget.EditText", "android.widget.Switch"]

/-- Test that the class attribute, read with a None default, is not in the
excluded set; a missing class is never excluded. -/
def classNotExcluded (n : XTree) : Bool :=
  match attrOpt n "class" with
  | some c => ! excludeClasses.contains c
  | none => true

/-- One pass of the sift_match loop. -/
def siftPass (st : MSt) : MSt × Bool :=
  st.fst.old.children.foldl
    (fun (acc : MSt × Bool) oldChild =>
      let (st, upd) := acc
      if st.fst.matched.contains oldChild.nid
          || attrD oldChild "text" "" ≠ "" || ! classNotExcluded oldChild then (st, upd)
      else
        let oldPoints := st.fst.matchedPoints.filter (fun pp => is_in_bound pp.fst oldChild)
        if oldPoints.length < 1 then (st, upd)
        else
          let oldMatches := oldPoints.map Prod.snd
          match st.fst.new.children.filter (fun n =>
            ! st.fst.matched.contains n.nid && attrD n "text" "" = ""
            && classNotExcluded n
            -- the source compares new_match_num / len(old_points) with
            -- 0.6; old_points is nonempty here, so the comparison is
            -- stated by cross multiplication
            && 10 * (oldMatches.filter (fun p => is_in_bound p n)).length
                ≥ 6 * oldPoints.length) with
          | [c] => (commitPair st oldChild c, true)
          | _ => (st, upd))
    (st, false)

/-- Fuelled fixed point of sift passes. -/
def siftLoop : Nat → MSt → MSt
  | 0, st => st
  | fuel + 1, st =>
      let (st2, upd) := siftPass st
      if upd then siftLoop fuel st2 else st2

/-- Model of sift_match: fixed-point loop over unmatched textless old
children outside the excluded classes, matching by the 60 percent
keypoint containment rule with a unique candidate. -/
def sift_match (st : MSt) : MSt :=
  siftLoop (st.fst.old.children.length + 1) st

/-- Model of match_parents: unique-candidate matching over the parent
sets, recorded only in matchedParents, with a local used set. -/
def match_parents (pred : XTree → XTree → Bool) (st : MSt) : MSt :=
  (st.fst.old.parents.foldl
    (fun (acc : MSt × List Nat) oldParent =>
      let (st, used) := acc
      if used.contains oldParent.nid then (st, used)
      else
        match st.fst.new.parents.filter (fun n =>
          ! used.contains n.nid && pred oldParent n) with
        | [c] =>
            (({ st.fst with matchedParents := pairSet st.fst.matchedParents oldParent c },
              st.snd),
             used ++ [oldParent.nid, c.nid])
        | _ => (st, used))
    (st, [])).fst

/-- Model of optimize_match: inside each matched parent pair, restrict to
descendants that are children of the respective layout and apply the
predicate with the unique candidate rule. -/
def optimize_match (pred : XTree → XTree → Bool) (st : MSt) : MSt :=
  st.fst.matchedParents.foldl
    (fun st pair =>
      let oldChildren := pair.fst.iterNodes.filter (fun n => idsContain st.fst.old.children n.nid)
      let newChildren := pair.snd.iterNodes.filter (fun n => idsContain st.fst.new.children n.nid)
      oldChildren.foldl
        (fun st oldChild =>
          if st.fst.matched.contains oldChild.nid then st
          else
            match newChildren.filter (fun n =>
              ! st.fst.matched.contains n.nid && pred oldChild n) with
            | [c] => commitPair st oldChild c
            | _ => st)
        st)
    st

/-- Model of unique_match: among the unique children of both sides, match
EditText nodes of equal class with a unique candidate. -/
def unique_match (st : MSt) : MSt :=
  st.fst.old.uniqueChildren.foldl
    (fun st oldChild =>
      if st.fst.matched.contains oldChild.nid then st
      else
        match st.fst.new.uniqueChildren.filter (fun n =>
          ! st.fst.matched.contains n.nid && attr_equal oldChild n "class"
          && attrD oldChild "class" "" = "android.widget.EditText") with
        | [c] => commitPair st oldChild c
        | _ => st)
    st

def lowerStr (s : String) : String := String.mk (pyLower s.data)

/-- Model of the get_unique_possible tiebreaker inside match_possible: the
candidates whose lowercased attribute equals the lowercased old value and
whose class equals the old class, accepted when exactly one remains. -/
def get_unique_possible (attr : String) (old : XTree) (cands : List XTree) :
    Option XTree :=
  let oldAttr := lowerStr (attrD old attr "")
  if oldAttr ≠ "" then
    match cands.filter (fun c =>
      lowerStr (attrD c attr "") = oldAttr
      && attrD c "class" "" = attrD old "class" "") with
    | [c] => some c
    | _ => none
  else none

/-- Model of match_possible: for each unconsumed old child collect every
unconsumed new child satisfying the predicate; promote a unique-possible
candidate to matched, with the resource-id case further requiring the old
child not to be a list item; otherwise store the candidate set. -/
def match_possible (pred : XTree → XTree → Bool) (st : MSt) : MSt :=
  st.fst.old.children.foldl
    (fun st oldChild =>
      if st.fst.matched.contains oldChild.nid then st
      else
        let cands := st.fst.new.children.filter (fun n =>
          ! st.fst.matched.contains n.nid && pred oldChild n)
        if cands.length > 0 then
          let choice :=
            match get_unique_possible "text" oldChild cands with
            | some c => some c
            | none =>
                match get_unique_possible "content-desc" oldChild cands with
                | some c => some c
                | none =>
                    match get_unique_possible "resource-id" oldChild cands with
                    | some c =>
                        if pairHasKey st.fst.old.nonOverlap oldChild.nid then none
                        else some c
                    | none => none
          match choice with
          | some c => commitPair st oldChild c
          | none => (st.fst, { st.snd with possible := st.snd.possible ++ [(oldChild, cands)] })
        else st)
    st

/-- Model of set_not_match. -/
def set_not_match (st : MSt) : MSt :=
  let info := st.fst
  let r := st.snd
  let newPossible := r.possible.flatMap Prod.snd
  (info,
   { r with
     oldNotMatched := info.old.children.filter (fun x =>
       ! (r.matched.any (fun p => p.fst.nid = x.nid))
       && ! (r.possible.any (fun p => p.fst.nid = x.nid)))
     newNotMatched := info.new.children.filter (fun x =>
       ! (r.matched.any (fun p => p.snd.nid = x.nid))
       && ! idsContain newPossible x.nid) })

/-- Model of set_match_score with the threshold 0.8. -/
def set_match_score (r : ResultM) : ResultM :=
  let matchedNum := r.matched.length
  let possibleNum := r.possible.length
  let notMatch := r.oldNotMatched.length
  let total := matchedNum + possibleNum + notMatch
  let score : ℚ := if total ≠ 0 then ((matchedNum + possibleNum : ℕ) : ℚ) / (total : ℚ) else 0
  { r with score := score, isMatch := decide (score ≥ (8 : ℚ) / 10) }

/-- Model of match_layout: the phase sequence of the source, with the
SIFT point matches as an input. -/
def match_layout (old new : LayoutM) (matchedPoints : List (KeyPt × KeyPt)) : ResultM :=
  let st0 : MSt :=
    ({ old := old, new := new, matchedPoints := matchedPoints }, {})
  let st1 := match_sure (fun x y => is_match x y) st0
  let st2 := match_sure (fun x y => is_like x y) st1
  let st3 := sift_match st2
  let st4 := match_parents (fun x y => is_match x y false) st3
  let st5 := optimize_match (fun x y => is_like x y false) st4
  let st6 := unique_match st5
  let st7 := match_possible (fun x y => is_match x y false) st6
  (set_match_score (set_not_match st7).snd)

/-- State reached after the seven matching phases, the argument of the
finalize phase inside match_layout. -/
def pipelineState (old new : LayoutM) (matchedPoints : List (KeyPt × KeyPt)) : MSt :=
  match_possible (fun x y => is_match x y false)
    (unique_match (optimize_match (fun x y => is_like x y false)
      (match_parents (fun x y => is_match x y false)
        (sift_match (match_sure (fun x y => is_like x y)
          (match_sure (fun x y => is_match x y)
            ({ old := old, new := new, matchedPoints := matchedPoints }, ({} : ResultM))))))))

/-! ## Canonical tree equality (tree_equal of predictors.py) -/

/-- Lexicographic order on character lists, used to sort attribute keys
canonically. -/
def charsLt : List Char → List Char → Bool
  | [], [] => false
  | [], _ :: _ => true
  | _ :: _, [] => false
  | a :: as, b :: bs =>
      if a.toNat < b.toNat then true
      else if b.toNat < a.toNat then false
      else charsLt as bs

def insertAttr (p : String × String) : List (String × String) → List (String × String)
  | [] => [p]
  | q :: rest =>
      if charsLt q.fst.data p.fst.data then q :: insertAttr p rest else p :: q :: rest

/-- Attribute list sorted by key, the attribute order of canonical XML. -/
def sortAttrs (a : List (String × String)) : List (String × String) :=
  a.foldl (fun acc p => insertAttr p acc) []

mutual
/-- Canonical form of a tree: attributes sorted by key, the nid field
zeroed, since object identity does not appear in the serialised XML. -/
def canonT : XTree → XTree
  | .mk _ tg a ks => .mk 0 tg (sortAttrs a) (canonK ks)
def canonK : XKids → XKids
  | .nil => .nil
  | .cons t ts => .cons (canonT t) (canonK ts)
end

/-- Model of tree_equal: canonical XML equality compares tags, attribute
sets and child sequences recursively. -/
def tree_equal (a b : XTree) : Bool := canonT a = canonT b

/-! ## Events, steps and test-case loading (gsrb/common) -/

/-- Parameter values of an event: the JSON scalars that occur in record
files. -/
inductive PVal where
  | b (v : Bool)
  | i (v : Int)
  | s (v : String)
deriving DecidableEq, Repr

/-- Python truthiness of a parameter value. -/
def pyTruthy : PVal → Bool
  | .b v => v
  | .i v => v ≠ 0
  | .s v => v ≠ ""

inductive ActionM where
  | CLICK
  | LONG_CLICK
  | SET_TEXT
  | EXIST
  | NOT_EXIST
  | EQUAL
  | NOT_EQUAL
  | BACK
  | SWIPE
deriving DecidableEq, Repr

/-- Model of the Event dataclass. -/
structure EventM where
  action : ActionM
  locator : Option Locator := none
  parameter : List (String × PVal) := []

def EventM.paramGet (e : EventM) (k : String) : Option PVal :=
  (e.parameter.find? (fun p => p.fst = k)).map Prod.snd

/-- Model of Action.is_assertion. -/
def ActionM.isAssertion : ActionM → Bool
  | .EXIST | .NOT_EXIST | .EQUAL | .NOT_EQUAL => true
  | _ => false

def EventM.is_assertion (e : EventM) : Bool := e.action.isAssertion

/-- Model of the Ui pair: layout xml text and screenshot bytes. -/
structure UiM where
  x : String := ""
  p : List Nat := []
deriving DecidableEq

/-- Model of the Step dataclass. -/
structure StepM where
  event : EventM
  ui_before : UiM := {}
  ui_after : UiM := {}

/-- Loading loop of load_testcase over the parsed event list: an event
whose generated parameter is truthy gets a bare step and leaves the UI
index unchanged; every other event receives the snapshots 2i and 2i+1 and
advances the index.  The archive reading and JSON parsing around the loop
are not modelled; the ui directory is the pair of content maps. -/
def loadLoop (xmlAt : Nat → String) (pngAt : Nat → List Nat) :
    List EventM → Nat → List StepM
  | [], _ => []
  | e :: rest, i =>
      if pyTruthy ((e.paramGet "generated").getD (.b false)) then
        { event := e } :: loadLoop xmlAt pngAt rest i
      else
        { event := e
          ui_before := { x := xmlAt (2 * i), p := pngAt (2 * i) }
          ui_after := { x := xmlAt (2 * i + 1), p := pngAt (2 * i + 1) } }
          :: loadLoop xmlAt pngAt rest (i + 1)

def load_testcase (events : List EventM) (xmlAt : Nat → String)
    (pngAt : Nat → List Nat) : List StepM :=
  loadLoop xmlAt pngAt events 0

/-! ## Single-step match of the repair driver (gsrb/repair/repair.py) -/

/-- Observable outcome of one call of the private match method of Repair:
an exit code when the session quits, the steps appended to result, the
step pointer increment, the returned boolean, and a flag for an uncaught
exception from the layout lookup. -/
structure MatchCallResult where
  exitCode : Option Int := none
  appended : List StepM := []
  delta : Nat := 0
  retVal : Option Bool := none
  exc : Bool := false

/-- Model of the private match method of Repair.  Device effects are
inputs: live and liveUi model the captured layout before the perform,
performOK the success of Event.perform, after and afterUi the capture
following a successful perform.  The base layout is the Layout built from
the recorded ui_before of the step; its xml parse is external and it is
passed in parsed form.  The exit code -1 models quit on failure. -/
def repair_match (step : StepM) (offset : Nat) (base live : LayoutM)
    (liveUi : UiM) (pts : List (KeyPt × KeyPt)) (performOK : Bool)
    (after : LayoutM) (afterUi : UiM) : MatchCallResult :=
  if step.event.is_assertion then { retVal := some false }
  else
    match step.event.locator with
    | none =>
        if performOK then
          { appended := [{ event := step.event, ui_before := liveUi, ui_after := afterUi }],
            delta := offset, retVal := some true }
        else { retVal := some false }
    | some locator =>
        let result := match_layout base live pts
        match locator.find_in_layout base.root with
        | .error _ => { exc := true }
        | .ok none => { exitCode := some (-1) }
        | .ok (some oldChild) =>
            match pairFind result.matched oldChild.nid with
            | some target =>
                let newEvent : EventM :=
                  { step.event with locator := some (Locator.from_node target) }
                if performOK then
                  if tree_equal live.root after.root then
                    { delta := offset, retVal := some true }
                  else
                    { appended := [{ event := newEvent, ui_before := liveUi, ui_after := afterUi }],
                      delta := offset, retVal := some true }
                else { exitCode := some (-1) }
            | none => { retVal := some false }

/-! ## Concrete inputs for the claims -/

def c1NodeA : XTree := .mk 1 "node" [("bounds", "[100,0][200,50]")] .nil

def c1NodeB : XTree := .mk 2 "node" [("bounds", "[0,0][50,50]")] .nil

/-- Old layout tree for the C2 counterexample: a child with only a
resource-id, and a child with only a text. -/
def c2OldTree : XTree :=
  .mk 0 "hierarchy" [] (.cons
    (.mk 1 "node" [("resource-id", "x:id/a"), ("content-desc", ""), ("text", ""),
                   ("class", "C"), ("bounds", "[0,0][100,50]")] .nil)
    (.cons (.mk 2 "node" [("resource-id", ""), ("content-desc", ""), ("text", "hello"),
                          ("class", "C"), ("bounds", "[0,100][100,150]")] .nil) .nil))

/-- New layout tree for the C2 counterexample: two children sharing the
resource-id, one of which also carries the text. -/
def c2NewTree : XTree :=
  .mk 10 "hierarchy" [] (.cons
    (.mk 11 "node" [("resource-id", "x:id/a"), ("content-desc", ""), ("text", "hello"),
                    ("class", "C"), ("bounds", "[0,0][100,50]")] .nil)
    (.cons (.mk 12 "node" [("resource-id", "x:id/a"), ("content-desc", ""), ("text", ""),
                           ("class", "C"), ("bounds", "[0,100][100,150]")] .nil) .nil))

def c2Result : ResultM := match_layout (mkLayout c2OldTree) (mkLayout c2NewTree) []

/-- Tree for the C4 counterexample: a node with a com.google.android
resource-id, and a node whose bounds are inverted on the x axis. -/
def c4Tree : XTree := .mk 0 "hierarchy" []
  (.cons (.mk 1 "node" [("resource-id", "com.google.android.gms"), ("text", "hi"),
                        ("bounds", "[0,0][10,10]")] .nil)
  (.cons (.mk 2 "node" [("resource-id", "r"), ("bounds", "[50,0][10,10]")] .nil) .nil))

def c5NodeA : XTree := .mk 1 "node" [("resource-id", "app:id/")] .nil

def c5NodeB : XTree := .mk 2 "node" [("resource-id", "app:id/")] .nil

def c5NodeC : XTree := .mk 3 "node" [("text", "Hello  there ")] .nil

def c5NodeD : XTree := .mk 4 "node" [("text", "hello there")] .nil

def c5NodeE : XTree := .mk 5 "node" [("resource-id", "x:id/e"), ("text", "go"), ("content-desc", "")] .nil

def c5NodeF : XTree := .mk 6 "node" [("resource-id", "x:id/e"), ("text", "go"), ("content-desc", "")] .nil

def c7BaseTree : XTree := .mk 0 "hierarchy" []
  (.cons (.mk 1 "node" [("resource-id", "x:id/b"), ("content-desc", ""),
                        ("text", "hello"), ("class", "C"), ("bounds", "[0,0][100,50]")] .nil) .nil)

def c7LiveTree : XTree := .mk 10 "hierarchy" []
  (.cons (.mk 11 "node" [("resource-id", "x:id/b"), ("content-desc", ""),
                         ("text", "hello"), ("class", "C"), ("bounds", "[0,0][100,50]")] .nil) .nil)

/-- Changed live tree, used as the post-perform capture that is not
canonically equal to the pre-perform capture. -/
def c7AfterTree : XTree := .mk 20 "hierarchy" []
  (.cons (.mk 21 "node" [("resource-id", "x:id/c"), ("content-desc", ""),
                         ("text", "other"), ("class", "C"), ("bounds", "[0,0][100,50]")] .nil) .nil)

def c7Base : LayoutM := mkLayout c7BaseTree

def c7Live : LayoutM := mkLayout c7LiveTree

def c7After : LayoutM := mkLayout c7AfterTree

def c7Loc : Locator := ⟨singleCriteria .TEXT "hello", 0⟩

def c7Event : EventM := { action := .CLICK, locator := some c7Loc }

def c7Step : StepM := { event := c7Event }

def c7OldChild : XTree := ((c7Loc.find_in_layout c7Base.root).toOption.bind id).getD c7BaseTree

def c7Target : XTree :=
  (pairFind (match_layout c7Base c7Live []).matched c7OldChild.nid).getD c7BaseTree

def c7UiLive : UiM := { x := "live", p := [1] }

def c7UiAfter : UiM := { x := "after", p := [2] }

def c9Tree : XTree := .mk 0 "hierarchy" []
  (.cons (.mk 1 "node" [("text", "b")] .nil) (.cons (.mk 2 "node" [("text", "b")] .nil) .nil))

def c9FallbackNode : XTree :=
  .mk 5 "node" [("text", ""), ("content-desc", ""), ("resource-id", ""),
                ("class", "android.view.View"), ("class-index", "-1")] .nil

def c8GenEvent : EventM := { action := .EXIST, parameter := [("generated", .b true)] }

def c8ClickA : EventM := { action := .CLICK }

def c8ClickB : EventM := { action := .LONG_CLICK }

def c8Events : List EventM := [c8ClickA, c8GenEvent, c8ClickB]

def c8XmlAt : Nat → String := fun n => intToStr (Int.ofNat n)

def c8PngAt : Nat → List Nat := fun n => [n]

/-- Count of the non-synthetic events of a list, the value of the UI file
index after consuming the list. -/
def countNS (events : List EventM) : Nat :=
  (events.filter (fun ev => ! pyTruthy ((ev.paramGet "generated").getD (.b false)))).length

/-- Per-node invariant established by preprocess, in the amended form: the
denoted x and y hold the parsed top-left corner, w and h the corner
differences exactly as written, with the parsed corners nonnegative and
no sign guarantee on w or h; and every node not skipped by the
com.google.android rule carries, for each of the four indexed attributes,
an index attribute holding the decimal form of some natural number when
the attribute value is nonempty and -1 when it is empty. -/
def c4Prop (n : XTree) : Prop :=
  (attrOpt n "x" = some (intToStr (coordinates n).x0) ∧
   attrOpt n "y" = some (intToStr (coordinates n).y0) ∧
   attrOpt n "w" = some (intToStr ((coordinates n).x1 - (coordinates n).x0)) ∧
   attrOpt n "h" = some (intToStr ((coordinates n).y1 - (coordinates n).y0)) ∧
   0 ≤ (coordinates n).x1 ∧ 0 ≤ (coordinates n).y1) ∧
  (("com.google.android".data).isPrefixOf (attrD n "resource-id" "").data = false →
    ∀ k ∈ indexKeys,
      (attrD n k "" ≠ "" →
        ∃ cnt : Nat, attrOpt n (k ++ "-index") = some (intToStr (cnt : Int))) ∧
      (attrD n k "" = "" → attrOpt n (k ++ "-index") = some (intToStr (-1))))

/-- Identities of the new-side nodes from which the pipeline can draw a
matched value: the children, the list-item keys of the non-overlap map,
and the unique children. -/
def newSideIds (l : LayoutM) : List Nat :=
  l.children.map XTree.nid ++ (l.nonOverlap.map (fun p => p.fst.nid)) ++
    l.uniqueChildren.map XTree.nid

/-- Identities of the old-side children, the pool of possible keys. -/
def oldChildIds (l : LayoutM) : List Nat := l.children.map XTree.nid

/-- Invariant carried through the matching phases: the layouts of the
shared info stay the inputs, every matched value is a new-side node and
every possible key is an old child. -/
def sideInv (old new : LayoutM) (st : MSt) : Prop :=
  st.fst.old = old ∧ st.fst.new = new ∧
  (∀ p ∈ st.snd.matched, p.snd.nid ∈ newSideIds new) ∧
  (∀ q ∈ st.snd.possible, q.fst.nid ∈ oldChildIds old)

/-- C1: is_overlap(a,b) is claimed to hold iff the rectangles intersect on
both axes, with min(ax1,bx1) > max(ax0,bx0) horizontally.  On the nodes
with bounds [100,0][200,50] and [0,0][50,50] the rectangles are disjoint
on the x axis, yet the source returns true, because its x test uses
min(ax1, ax1); the code contradicts its own docstring, which asks whether
the two components overlap. -/
theorem C1_is_overlap_claim_fails_on_code :
    is_overlap c1NodeA c1NodeB = true ∧
    ¬ (min (coordinates c1NodeA).x1 (coordinates c1NodeB).x1 >
        max (coordinates c1NodeA).x0 (coordinates c1NodeB).x0) := by
  constructor
  · rfl
  · decide

/-- C2 counterexample: on the two concrete layouts the pipeline first
stores the candidate set of the resource-id-only old child, then the
unique-possible tiebreaker promotes one of those candidates for the other
old child, so a matched value also occurs in a stored possible set. -/
theorem C2_counterexample_matched_value_in_possible :
    c2Result.matched.map (fun p => (p.fst.nid, p.snd.nid)) = [(2, 11)] ∧
    c2Result.possible.map (fun p => (p.fst.nid, p.snd.map XTree.nid)) = [(1, [11, 12])] ∧
    ∃ p ∈ c2Result.matched, ∃ q ∈ c2Result.possible, ∃ v ∈ q.snd, p.snd.nid = v.nid := by
  refine ⟨by decide, by decide, ?_⟩
  decide

/-- C10: the call form of Criterion compares the raw attribute read with a
None default against the identifier by exact string equality; a node
lacking the attribute matches nothing, and matching is case and
whitespace sensitive, unlike attr_equal on the same values. -/
theorem C10_criterion_exact_equality :
    (∀ (c : Criterion) (n : XTree) (ident : String),
        criterionApply c n ident = true ↔ attrOpt n c.xmlAttr = some ident) ∧
    criterionApply .TEXT c5NodeC "hello there" = false ∧
    attr_equal c5NodeC c5NodeD "text" = true := by
  refine ⟨?_, by decide, by decide⟩
  intro c n ident
  simp [criterionApply]

theorem lcsLenF_self : ∀ (f : Nat) (x : List Char), x.length ≤ f → lcsLenF f x x = x.length := by
  intro f x
  induction x generalizing f with
  | nil => intro _; cases f <;> rfl
  | cons c cs ih =>
      intro h
      cases f with
      | zero => simp at h
      | succ g =>
          have hcs : cs.length ≤ g := by
            simpa using Nat.lt_succ_iff.mp (Nat.lt_succ_of_le h)
          simp [lcsLenF, ih g hcs]
          omega

theorem lcsLen_self (x : List Char) : lcsLen x x = x.length :=
  lcsLenF_self _ x (by simp [Nat.le_add_right])

theorem similarityAtLeast70_self (x : List Char) : similarityAtLeast70 x x = true := by
  simp only [similarityAtLeast70, lcsLen_self, decide_eq_true_eq]
  omega

/-- C5 counterexample: two nodes whose resource-id is a bare package
prefix app:id/ are attr_equal on resource-id, but attr_like strips the
prefix, obtains the empty string on both sides and returns false. -/
theorem C5_counterexample_equal_without_like :
    attr_equal c5NodeA c5NodeB "resource-id" = true ∧
    attr_like c5NodeA c5NodeB "resource-id" = false := by
  decide

/-- C5 amended: strict is_match implies non-strict is_match for all nodes,
and attr_equal implies attr_like for every attribute other than
resource-id; on resource-id the prefix stripping of attr_like can empty
or rewrite the compared value and break the implication. -/
theorem C5_amended_monotonicity_and_like :
    (∀ a b : XTree, is_match a b true = true → is_match a b false = true) ∧
    (∀ (a b : XTree) (name : String), name ≠ "resource-id" →
        attr_equal a b name = true → attr_like a b name = true) := by
  constructor
  · intro a b h
    cases hx : attr_equal a b "resource-id" <;>
      cases hy : attr_equal a b "content-desc" <;>
        cases hz : attr_equal a b "text" <;>
          simp [is_match, hx, hy, hz] at h ⊢
  · intro a b name hname h
    simp only [attr_equal, Option.getD] at h
    by_cases hemp : pyLower (pyStrip (attrD a name "").data) = [] ∨
        pyLower (pyStrip (attrD b name "").data) = []
    · rw [if_pos (by simpa using hemp)] at h
      exact absurd h (by simp)
    · have hb : (decide (pyLower (pyStrip (attrD a name "").data) = []) ||
          decide (pyLower (pyStrip (attrD b name "").data) = [])) = false := by
        simpa using hemp
      rw [if_neg (by simp [hb])] at h
      have heq : collapseStrip (pyLower (pyStrip (attrD a name "").data)) =
          collapseStrip (pyLower (pyStrip (attrD b name "").data)) := by
        simpa using h
      simp only [attr_like, Option.getD]
      rw [if_neg hname]
      have hBif : (if (decide True && decide (name = "resource-id") ||
          decide ((none : Option String) ≠ none) &&
            decide ((none : Option String) = some "resource-id")) = true
          then process_id (pyLower (pyStrip (attrD b name "").data))
          else pyLower (pyStrip (attrD b name "").data))
          = pyLower (pyStrip (attrD b name "").data) := by
        rw [if_neg (by simp [hname])]
      rw [hBif]
      rw [if_neg (by simp [hb])]
      rw [heq]
      exact similarityAtLeast70_self _

/-- C5 witness: the amended implications applied at concrete nodes. -/
theorem C5_amended_witness :
    is_match c5NodeE c5NodeF false = true ∧ attr_like c5NodeC c5NodeD "text" = true :=
  ⟨C5_amended_monotonicity_and_like.1 c5NodeE c5NodeF (by decide),
   C5_amended_monotonicity_and_like.2 c5NodeC c5NodeD "text" (by decide) (by decide)⟩

/-- C6: the locator dict round trip is the identity, since every key
written by to_dict is a recognised enum name, and from_dict drops unknown
criterion keys, so the documented input with a NAME key yields the TEXT
criterion alone with index 0. -/
theorem C6_locator_roundtrip_and_unknown_key :
    (∀ l : Locator, Locator.from_dict (Locator.to_dict l) = l) ∧
    Locator.from_dict ⟨[("TEXT", "Documents"), ("NAME", "bla")], none⟩ =
      ⟨singleCriteria .TEXT "Documents", 0⟩ := by
  have hext : ∀ x y : Locator, x.criteria = y.criteria → x.index = y.index → x = y := by
    intro x y hc hi
    cases x
    cases y
    simp_all
  constructor
  · intro l
    apply hext
    · funext c
      rcases h1 : l.criteria .ID with _ | v1 <;>
        rcases h2 : l.criteria .DESC with _ | v2 <;>
          rcases h3 : l.criteria .CLASS with _ | v3 <;>
            rcases h4 : l.criteria .TEXT with _ | v4 <;>
              cases c <;>
                simp [Locator.from_dict, Locator.to_dict, criterionList,
                  criterionFromKey, Criterion.crName, h1, h2, h3, h4]
    · simp only [Locator.from_dict, Locator.to_dict]
      by_cases hi : l.index = 0 <;> simp [hi]
  · apply hext
    · funext c
      cases c <;> decide
    · decide

/-- C9: find_in_layout guards only the upper bound of the index, so an
index of -1 returns the last satisfying node in document order via the
negative subscript of Python lists, an index below the negative match
count raises, and from_node copies a denoted index of -1 into the
locator, as with the class fallback on an empty class attribute. -/
theorem C9_find_in_layout_negative_index :
    (∀ (f : Criterion → Option String) (root : XTree),
        Locator.find_in_layout ⟨f, -1⟩ root =
          .ok (Locator.matchedIn ⟨f, -1⟩ root).getLast?) ∧
    (∀ (f : Criterion → Option String) (root : XTree) (i : Int),
        (Locator.matchedIn ⟨f, i⟩ root).length ≠ 0 →
        i < -((Locator.matchedIn ⟨f, i⟩ root).length : Int) →
        Locator.find_in_layout ⟨f, i⟩ root = .error ()) ∧
    (∀ n : XTree, attrD n "text" "" = "" → attrD n "content-desc" "" = "" →
        attrD n "resource-id" "" = "" → attrOpt n "class-index" = some "-1" →
        Locator.from_node n = ⟨singleCriteria .CLASS (attrD n "class" ""), -1⟩) := by
  refine ⟨?_, ?_, ?_⟩
  · intro f root
    unfold Locator.find_in_layout
    set m := Locator.matchedIn ⟨f, -1⟩ root with hm
    by_cases h0 : m.length = 0
    · have hml : m = [] := List.length_eq_zero.mp h0
      simp [h0, hml]
    · have h1 : 1 ≤ m.length := Nat.one_le_iff_ne_zero.mpr h0
      rw [if_neg ?hc1]
      case hc1 =>
        simp
        exact ⟨fun hml => h0 (by simp [hml]), by omega⟩
      unfold pyListGet
      rw [if_neg (show ¬ (0 : Int) ≤ -1 by omega)]
      have htn : (((m.length : Int) + (-1 : Int))).toNat = m.length - 1 := by omega
      rw [htn]
      have hlt : m.length - 1 < m.length := by omega
      rw [List.getElem?_eq_getElem hlt]
      have hge : ¬ ((m.length : Int) + (-1 : Int) < 0) := by omega
      rw [List.getLast?_eq_getElem?, List.getElem?_eq_getElem hlt]
      simp [hge]
  · intro f root i hne hlt
    unfold Locator.find_in_layout
    set m := Locator.matchedIn ⟨f, i⟩ root with hm
    have h1 : 1 ≤ m.length := Nat.one_le_iff_ne_zero.mpr hne
    rw [if_neg ?hc2]
    case hc2 =>
      simp
      exact ⟨fun hml => hne (by simp [hml]), by omega⟩
    unfold pyListGet
    rw [if_neg (show ¬ (0 : Int) ≤ i by omega)]
    have hneg : (m.length : Int) + i < 0 := by omega
    cases hg : m[((m.length : Int) + i).toNat]? with
    | none => simp [hg]
    | some x => simp [hg, hneg]
  · intro n h1 h2 h3 h4
    unfold Locator.from_node
    rw [if_neg (by simp [h1]), if_neg (by simp [h2]), if_neg (by simp [h3])]
    have hci : attrD n "class-index" "0" = "-1" := by simp [attrD, h4]
    rw [hci]
    rfl

/-- C9 witness: on the two-match tree, index -1 selects the second match,
index -3 raises, and the class fallback carries index -1. -/
theorem C9_witness :
    Locator.find_in_layout ⟨singleCriteria .TEXT "b", -1⟩ c9Tree =
      .ok (some (.mk 2 "node" [("text", "b")] .nil)) ∧
    Locator.find_in_layout ⟨singleCriteria .TEXT "b", -3⟩ c9Tree = .error () ∧
    Locator.from_node c9FallbackNode = ⟨singleCriteria .CLASS "android.view.View", -1⟩ := by
  refine ⟨?_, ?_, ?_⟩
  · rw [C9_find_in_layout_negative_index.1 (singleCriteria .TEXT "b") c9Tree]
    decide
  · exact C9_find_in_layout_negative_index.2.1 (singleCriteria .TEXT "b") c9Tree (-3)
      (by decide) (by decide)
  · exact C9_find_in_layout_negative_index.2.2 c9FallbackNode rfl rfl rfl rfl

theorem loadLoop_get? (xmlAt : Nat → String) (pngAt : Nat → List Nat) :
    ∀ (events : List EventM) (i0 k : Nat) (e : EventM),
      events.get? k = some e →
      (loadLoop xmlAt pngAt events i0).get? k = some (
        if pyTruthy ((e.paramGet "generated").getD (.b false)) then { event := e }
        else
          { event := e,
            ui_before := { x := xmlAt (2 * (i0 + countNS (events.take k))),
                           p := pngAt (2 * (i0 + countNS (events.take k))) },
            ui_after := { x := xmlAt (2 * (i0 + countNS (events.take k)) + 1),
                          p := pngAt (2 * (i0 + countNS (events.take k)) + 1) } }) := by
  intro events
  induction events with
  | nil => intro i0 k e h; simp at h
  | cons e0 rest ih =>
      intro i0 k e h
      cases k with
      | zero =>
          have he : e0 = e := by simpa using h
          subst he
          by_cases hg : pyTruthy ((e0.paramGet "generated").getD (.b false)) <;>
            simp [loadLoop, hg, countNS]
      | succ k =>
          have h2 : rest.get? k = some e := by simpa using h
          by_cases hg0 : pyTruthy ((e0.paramGet "generated").getD (.b false))
          · have hcount : countNS ((e0 :: rest).take (k + 1)) = countNS (rest.take k) := by
              simp [countNS, hg0]
            rw [hcount]
            simpa [loadLoop, hg0] using ih i0 k e h2
          · have hcount : i0 + countNS ((e0 :: rest).take (k + 1)) =
                (i0 + 1) + countNS (rest.take k) := by
              simp [countNS, hg0]
              omega
            rw [hcount]
            simpa [loadLoop, hg0] using ih (i0 + 1) k e h2

/-- C8: in the loading loop, each non-synthetic event at position i of the
non-synthetic subsequence receives its UIs from the files 2i and 2i+1,
while an event with generated true in its parameter receives the empty
default UIs and leaves the file index unchanged. -/
theorem C8_load_testcase_ui_assignment :
    ∀ (events : List EventM) (xmlAt : Nat → String) (pngAt : Nat → List Nat)
      (k : Nat) (e : EventM), events.get? k = some e →
      ((e.paramGet "generated" = some (.b true) →
          (load_testcase events xmlAt pngAt).get? k = some { event := e }) ∧
       (¬ pyTruthy ((e.paramGet "generated").getD (.b false)) = true →
          (load_testcase events xmlAt pngAt).get? k = some
            { event := e,
              ui_before := { x := xmlAt (2 * countNS (events.take k)),
                             p := pngAt (2 * countNS (events.take k)) },
              ui_after := { x := xmlAt (2 * countNS (events.take k) + 1),
                            p := pngAt (2 * countNS (events.take k) + 1) } })) := by
  intro events xmlAt pngAt k e h
  have H := loadLoop_get? xmlAt pngAt events 0 k e h
  constructor
  · intro hg
    have ht : pyTruthy ((e.paramGet "generated").getD (.b false)) = true := by
      rw [hg]
      rfl
    rw [load_testcase] at *
    rw [H, if_pos ht]
  · intro hg
    rw [load_testcase] at *
    rw [H, if_neg hg]
    simp

/-- C8 witness: a three-event list with a generated assertion in the
middle; the assertion gets empty UIs, and the third event reads files 2
and 3 because the assertion did not advance the index. -/
theorem C8_witness :
    (load_testcase c8Events c8XmlAt c8PngAt).get? 1 = some { event := c8GenEvent } ∧
    (load_testcase c8Events c8XmlAt c8PngAt).get? 2 = some
      { event := c8ClickB,
        ui_before := { x := c8XmlAt 2, p := c8PngAt 2 },
        ui_after := { x := c8XmlAt 3, p := c8PngAt 3 } } := by
  constructor
  · exact (C8_load_testcase_ui_assignment c8Events c8XmlAt c8PngAt 1 c8GenEvent rfl).1 rfl
  · exact (C8_load_testcase_ui_assignment c8Events c8XmlAt c8PngAt 2 c8ClickB rfl).2 (by decide)

theorem aGet_attrsSet_self (a : List (String × String)) (k v : String) :
    aGet (attrsSet a k v) k = some v := by
  unfold attrsSet aGet
  by_cases h : a.any (fun p => p.fst = k)
  · rw [if_pos h, List.find?_map]
    have hfun : ((fun p : String × String => decide (p.fst = k)) ∘
        (fun p : String × String => if p.fst = k then (k, v) else p))
        = fun p : String × String => decide (p.fst = k) := by
      funext p
      by_cases hp : p.fst = k <;> simp [hp]
    rw [hfun]
    obtain ⟨x, hx, hpx⟩ := List.any_eq_true.mp h
    cases hf : a.find? (fun p => decide (p.fst = k)) with
    | none =>
        rw [List.find?_eq_none] at hf
        exact absurd hpx (hf x hx)
    | some q =>
        have hq : q.fst = k := by simpa using List.find?_some hf
        simp [hq]
  · rw [if_neg h, List.find?_append]
    have hnone : a.find? (fun p => decide (p.fst = k)) = none := by
      rw [List.find?_eq_none]
      intro x hx hpx
      exact h (List.any_eq_true.mpr ⟨x, hx, hpx⟩)
    simp [hnone]

theorem aGet_attrsSet_other (a : List (String × String)) (k v k2 : String) (h : k2 ≠ k) :
    aGet (attrsSet a k v) k2 = aGet a k2 := by
  unfold attrsSet aGet
  by_cases hany : a.any (fun p => p.fst = k)
  · rw [if_pos hany, List.find?_map]
    have hfun : ((fun p : String × String => decide (p.fst = k2)) ∘
        (fun p : String × String => if p.fst = k then (k, v) else p))
        = fun p : String × String => decide (p.fst = k2) := by
      funext p
      by_cases hp : p.fst = k <;> simp [hp]
    rw [hfun]
    cases hf : a.find? (fun p => decide (p.fst = k2)) with
    | none => simp
    | some q =>
        have hq : q.fst = k2 := by simpa using List.find?_some hf
        have hqk : (if q.fst = k then (k, v) else q) = q := by
          rw [if_neg (by rw [hq]; exact h)]
        simp [hqk]
  · rw [if_neg hany, List.find?_append]
    cases hf : a.find? (fun p => decide (p.fst = k2)) with
    | some q => simp
    | none =>
        have hsingle : ([(k, v)] : List (String × String)).find?
            (fun p => decide (p.fst = k2)) = none := by
          rw [List.find?_eq_none]
          intro x hx
          simp at hx
          subst hx
          simp [Ne.symm h]
        simp [hsingle]

theorem coordinates_congr (i i2 : Nat) (tg tg2 : String) (a1 a2 : List (String × String))
    (ks ks2 : XKids) (h : aGet a1 "bounds" = aGet a2 "bounds") :
    coordinates (XTree.mk i tg a1 ks) = coordinates (XTree.mk i2 tg2 a2 ks2) := by
  unfold coordinates attrD attrOpt
  simp only [XTree.attrs]
  rw [h]

theorem coordinates_nonneg (t : XTree) :
    0 ≤ (coordinates t).x0 ∧ 0 ≤ (coordinates t).y0 ∧
    0 ≤ (coordinates t).x1 ∧ 0 ≤ (coordinates t).y1 := by
  unfold coordinates
  cases hp : parseBounds (attrD t "bounds" "[0,0][0,0]") with
  | none => simp
  | some q =>
      obtain ⟨a, b, c, d⟩ := q
      simp

theorem dbApply_facts (a : List (String × String)) :
    aGet (dbApply a) "x" = some (intToStr (coordinates (XTree.mk 0 "node" a .nil)).x0) ∧
    aGet (dbApply a) "y" = some (intToStr (coordinates (XTree.mk 0 "node" a .nil)).y0) ∧
    aGet (dbApply a) "w" = some (intToStr ((coordinates (XTree.mk 0 "node" a .nil)).x1 -
      (coordinates (XTree.mk 0 "node" a .nil)).x0)) ∧
    aGet (dbApply a) "h" = some (intToStr ((coordinates (XTree.mk 0 "node" a .nil)).y1 -
      (coordinates (XTree.mk 0 "node" a .nil)).y0)) ∧
    (∀ k2, k2 ≠ "x" → k2 ≠ "y" → k2 ≠ "w" → k2 ≠ "h" →
      aGet (dbApply a) k2 = aGet a k2) := by
  unfold dbApply
  refine ⟨?_, ?_, ?_, ?_, ?_⟩
  · rw [aGet_attrsSet_other _ _ _ _ (by decide), aGet_attrsSet_other _ _ _ _ (by decide),
        aGet_attrsSet_other _ _ _ _ (by decide), aGet_attrsSet_self]
  · rw [aGet_attrsSet_other _ _ _ _ (by decide), aGet_attrsSet_other _ _ _ _ (by decide),
        aGet_attrsSet_self]
  · rw [aGet_attrsSet_other _ _ _ _ (by decide), aGet_attrsSet_self]
  · rw [aGet_attrsSet_self]
  · intro k2 h1 h2 h3 h4
    rw [aGet_attrsSet_other _ _ _ _ h4, aGet_attrsSet_other _ _ _ _ h3,
        aGet_attrsSet_other _ _ _ _ h2, aGet_attrsSet_other _ _ _ _ h1]

theorem diStep_aGet_other (st : Counters × List (String × String)) (k k2 : String)
    (h : k2 ≠ k ++ "-index") :
    aGet (diStep st k).snd k2 = aGet st.snd k2 := by
  unfold diStep
  by_cases hv : (aGet st.snd k).getD "" ≠ "" <;>
    simp [hv, aGet_attrsSet_other _ _ _ _ h]

theorem diStep_sets_index (st : Counters × List (String × String)) (k : String)
    (hv : (aGet st.snd k).getD "" ≠ "") :
    aGet (diStep st k).snd (k ++ "-index") =
      some (intToStr ((st.fst k ((aGet st.snd k).getD "")) : Int)) := by
  unfold diStep
  rw [if_pos hv]
  exact aGet_attrsSet_self _ _ _

theorem diStep_empty (st : Counters × List (String × String)) (k : String)
    (hv : (aGet st.snd k).getD "" = "") :
    aGet (diStep st k).snd (k ++ "-index") = some (intToStr (-1)) := by
  unfold diStep
  rw [if_neg (show ¬ ((aGet st.snd k).getD "" ≠ "") from by simp [hv])]
  exact aGet_attrsSet_self _ _ _

theorem diApply_preserve (cs : Counters) (a : List (String × String)) (k2 : String)
    (h1 : k2 ≠ "class-index") (h2 : k2 ≠ "resource-id-index")
    (h3 : k2 ≠ "content-desc-index") (h4 : k2 ≠ "text-index") :
    aGet (diApply cs a).snd k2 = aGet a k2 := by
  unfold diApply
  by_cases hsk : ("com.google.android".data).isPrefixOf ((aGet a "resource-id").getD "").data
  · rw [if_pos hsk]
  · rw [if_neg hsk]
    simp only [indexKeys, List.foldl]
    rw [diStep_aGet_other _ _ _ (by rw [show ("text" ++ "-index" : String) = "text-index" from rfl]; exact h4)]
    rw [diStep_aGet_other _ _ _ (by rw [show ("content-desc" ++ "-index" : String) = "content-desc-index" from rfl]; exact h3)]
    rw [diStep_aGet_other _ _ _ (by rw [show ("resource-id" ++ "-index" : String) = "resource-id-index" from rfl]; exact h2)]
    rw [diStep_aGet_other _ _ _ (by rw [show ("class" ++ "-index" : String) = "class-index" from rfl]; exact h1)]

theorem c4_node (cs : Counters) (a : List (String × String)) (i : Nat) (ks : XKids) :
    c4Prop (XTree.mk i "node" (dbApply (diApply cs a).snd) ks) := by
  obtain ⟨hx, hy, hw, hh, hother⟩ := dbApply_facts (diApply cs a).snd
  have hbounds : aGet (dbApply (diApply cs a).snd) "bounds" =
      aGet (diApply cs a).snd "bounds" :=
    hother "bounds" (by decide) (by decide) (by decide) (by decide)
  have hcoord : coordinates (XTree.mk i "node" (dbApply (diApply cs a).snd) ks) =
      coordinates (XTree.mk 0 "node" (diApply cs a).snd .nil) :=
    coordinates_congr _ _ _ _ _ _ _ _ hbounds
  constructor
  · refine ⟨?_, ?_, ?_, ?_, ?_, ?_⟩
    · simp only [attrOpt, XTree.attrs]
      rw [hx, hcoord]
    · simp only [attrOpt, XTree.attrs]
      rw [hy, hcoord]
    · simp only [attrOpt, XTree.attrs]
      rw [hw, hcoord]
    · simp only [attrOpt, XTree.attrs]
      rw [hh, hcoord]
    · rw [hcoord]
      exact (coordinates_nonneg _).2.2.1
    · rw [hcoord]
      exact (coordinates_nonneg _).2.2.2
  · intro hskip k hk
    have hrid : aGet (dbApply (diApply cs a).snd) "resource-id" = aGet a "resource-id" := by
      rw [hother "resource-id" (by decide) (by decide) (by decide) (by decide)]
      exact diApply_preserve cs a "resource-id" (by decide) (by decide) (by decide) (by decide)
    have hskipa : ("com.google.android".data).isPrefixOf
        ((aGet a "resource-id").getD "").data = false := by
      have hs := hskip
      simp only [attrD, attrOpt, XTree.attrs] at hs
      rw [hrid] at hs
      exact hs
    have hfold : diApply cs a = List.foldl diStep (cs, a) indexKeys := by
      unfold diApply
      rw [if_neg (by simp [hskipa])]
    have hval : ∀ k0 : String, k0 ≠ "class-index" → k0 ≠ "resource-id-index" →
        k0 ≠ "content-desc-index" → k0 ≠ "text-index" → k0 ≠ "x" → k0 ≠ "y" →
        k0 ≠ "w" → k0 ≠ "h" →
        aGet (dbApply (diApply cs a).snd) k0 = aGet a k0 := by
      intro k0 p1 p2 p3 p4 p5 p6 p7 p8
      rw [hother k0 p5 p6 p7 p8]
      exact diApply_preserve cs a k0 p1 p2 p3 p4
    fin_cases hk
    · constructor
      · intro hkv
        have hva : (aGet a "class").getD "" ≠ "" := by
          simp only [attrD, attrOpt, XTree.attrs] at hkv
          rw [hval "class" (by decide) (by decide) (by decide) (by decide)
            (by decide) (by decide) (by decide) (by decide)] at hkv
          exact hkv
        refine ⟨cs "class" ((aGet a "class").getD ""), ?_⟩
        simp only [attrOpt, XTree.attrs]
        rw [hother _ (by decide) (by decide) (by decide) (by decide), hfold]
        simp only [indexKeys, List.foldl]
        rw [diStep_aGet_other _ _ _ (by decide), diStep_aGet_other _ _ _ (by decide),
            diStep_aGet_other _ _ _ (by decide)]
        exact diStep_sets_index (cs, a) "class" hva
      · intro hkv
        have hva : (aGet a "class").getD "" = "" := by
          simp only [attrD, attrOpt, XTree.attrs] at hkv
          rw [hval "class" (by decide) (by decide) (by decide) (by decide)
            (by decide) (by decide) (by decide) (by decide)] at hkv
          exact hkv
        simp only [attrOpt, XTree.attrs]
        rw [hother _ (by decide) (by decide) (by decide) (by decide), hfold]
        simp only [indexKeys, List.foldl]
        rw [diStep_aGet_other _ _ _ (by decide), diStep_aGet_other _ _ _ (by decide),
            diStep_aGet_other _ _ _ (by decide)]
        exact diStep_empty (cs, a) "class" hva
    · constructor
      · intro hkv
        have hva : (aGet a "resource-id").getD "" ≠ "" := by
          simp only [attrD, attrOpt, XTree.attrs] at hkv
          rw [hval "resource-id" (by decide) (by decide) (by decide) (by decide)
            (by decide) (by decide) (by decide) (by decide)] at hkv
          exact hkv
        have hv1 : (aGet (diStep (cs, a) "class").snd "resource-id").getD "" ≠ "" := by
          rw [diStep_aGet_other _ _ _ (by decide)]
          exact hva
        refine ⟨(diStep (cs, a) "class").fst "resource-id"
          ((aGet (diStep (cs, a) "class").snd "resource-id").getD ""), ?_⟩
        simp only [attrOpt, XTree.attrs]
        rw [hother _ (by decide) (by decide) (by decide) (by decide), hfold]
        simp only [indexKeys, List.foldl]
        rw [diStep_aGet_other _ _ _ (by decide), diStep_aGet_other _ _ _ (by decide)]
        exact diStep_sets_index (diStep (cs, a) "class") "resource-id" hv1
      · intro hkv
        have hva : (aGet a "resource-id").getD "" = "" := by
          simp only [attrD, attrOpt, XTree.attrs] at hkv
          rw [hval "resource-id" (by decide) (by decide) (by decide) (by decide)
            (by decide) (by decide) (by decide) (by decide)] at hkv
          exact hkv
        have hv1 : (aGet (diStep (cs, a) "class").snd "resource-id").getD "" = "" := by
          rw [diStep_aGet_other _ _ _ (by decide)]
          exact hva
        simp only [attrOpt, XTree.attrs]
        rw [hother _ (by decide) (by decide) (by decide) (by decide), hfold]
        simp only [indexKeys, List.foldl]
        rw [diStep_aGet_other _ _ _ (by decide), diStep_aGet_other _ _ _ (by decide)]
        exact diStep_empty (diStep (cs, a) "class") "resource-id" hv1
    · constructor
      · intro hkv
        have hva : (aGet a "content-desc").getD "" ≠ "" := by
          simp only [attrD, attrOpt, XTree.attrs] at hkv
          rw [hval "content-desc" (by decide) (by decide) (by decide) (by decide)
            (by decide) (by decide) (by decide) (by decide)] at hkv
          exact hkv
        have hv1 : (aGet (diStep (diStep (cs, a) "class") "resource-id").snd
            "content-desc").getD "" ≠ "" := by
          rw [diStep_aGet_other _ _ _ (by decide), diStep_aGet_other _ _ _ (by decide)]
          exact hva
        refine ⟨(diStep (diStep (cs, a) "class") "resource-id").fst "content-desc"
          ((aGet (diStep (diStep (cs, a) "class") "resource-id").snd "content-desc").getD ""), ?_⟩
        simp only [attrOpt, XTree.attrs]
        rw [hother _ (by decide) (by decide) (by decide) (by decide), hfold]
        simp only [indexKeys, List.foldl]
        rw [diStep_aGet_other _ _ _ (by decide)]
        exact diStep_sets_index (diStep (diStep (cs, a) "class") "resource-id")
          "content-desc" hv1
      · intro hkv
        have hva : (aGet a "content-desc").getD "" = "" := by
          simp only [attrD, attrOpt, XTree.attrs] at hkv
          rw [hval "content-desc" (by decide) (by decide) (by decide) (by decide)
            (by decide) (by decide) (by decide) (by decide)] at hkv
          exact hkv
        have hv1 : (aGet (diStep (diStep (cs, a) "class") "resource-id").snd
            "content-desc").getD "" = "" := by
          rw [diStep_aGet_other _ _ _ (by decide), diStep_aGet_other _ _ _ (by decide)]
          exact hva
        simp only [attrOpt, XTree.attrs]
        rw [hother _ (by decide) (by decide) (by decide) (by decide), hfold]
        simp only [indexKeys, List.foldl]
        rw [diStep_aGet_other _ _ _ (by decide)]
        exact diStep_empty (diStep (diStep (cs, a) "class") "resource-id")
          "content-desc" hv1
    · constructor
      · intro hkv
        have hva : (aGet a "text").getD "" ≠ "" := by
          simp only [attrD, attrOpt, XTree.attrs] at hkv
          rw [hval "text" (by decide) (by decide) (by decide) (by decide)
            (by decide) (by decide) (by decide) (by decide)] at hkv
          exact hkv
        have hv1 : (aGet (diStep (diStep (diStep (cs, a) "class") "resource-id")
            "content-desc").snd "text").getD "" ≠ "" := by
          rw [diStep_aGet_other _ _ _ (by decide), diStep_aGet_other _ _ _ (by decide),
              diStep_aGet_other _ _ _ (by decide)]
          exact hva
        refine ⟨(diStep (diStep (diStep (cs, a) "class") "resource-id") "content-desc").fst
          "text" ((aGet (diStep (diStep (diStep (cs, a) "class") "resource-id")
            "content-desc").snd "text").getD ""), ?_⟩
        simp only [attrOpt, XTree.attrs]
        rw [hother _ (by decide) (by decide) (by decide) (by decide), hfold]
        simp only [indexKeys, List.foldl]
        exact diStep_sets_index (diStep (diStep (diStep (cs, a) "class") "resource-id")
          "content-desc") "text" hv1
      · intro hkv
        have hva : (aGet a "text").getD "" = "" := by
          simp only [attrD, attrOpt, XTree.attrs] at hkv
          rw [hval "text" (by decide) (by decide) (by decide) (by decide)
            (by decide) (by decide) (by decide) (by decide)] at hkv
          exact hkv
        have hv1 : (aGet (diStep (diStep (diStep (cs, a) "class") "resource-id")
            "content-desc").snd "text").getD "" = "" := by
          rw [diStep_aGet_other _ _ _ (by decide), diStep_aGet_other _ _ _ (by decide),
              diStep_aGet_other _ _ _ (by decide)]
          exact hva
        simp only [attrOpt, XTree.attrs]
        rw [hother _ (by decide) (by decide) (by decide) (by decide), hfold]
        simp only [indexKeys, List.foldl]
        exact diStep_empty (diStep (diStep (diStep (cs, a) "class") "resource-id")
          "content-desc") "text" hv1

mutual
theorem c4_everyT : ∀ (cs : Counters) (u : XTree) (n : XTree),
    n ∈ (dbTree (diTree cs u).snd).iterNodes → c4Prop n
  | cs, .mk i tg a ks, n, h => by
      by_cases htg : tg = "node"
      · subst htg
        have hshape : (dbTree (diTree cs (XTree.mk i "node" a ks)).snd).iterNodes =
            [XTree.mk i "node" (dbApply (diApply cs a).snd)
              (dbKids (diKids (diApply cs a).fst ks).snd)] ++
            XKids.iterNodes (dbKids (diKids (diApply cs a).fst ks).snd) := rfl
        rw [hshape] at h
        rcases List.mem_append.mp h with h1 | h2
        · have hn : n = XTree.mk i "node" (dbApply (diApply cs a).snd)
              (dbKids (diKids (diApply cs a).fst ks).snd) := by simpa using h1
          rw [hn]
          exact c4_node cs a i _
        · exact c4_everyK (diApply cs a).fst ks n h2
      · have hE : dbTree (diTree cs (XTree.mk i tg a ks)).snd =
            dbTree (XTree.mk i tg
              ((if tg = "node" then diApply cs a else (cs, a)).snd)
              ((diKids ((if tg = "node" then diApply cs a else (cs, a)).fst) ks).snd)) := rfl
        rw [hE] at h
        simp only [if_neg htg] at h
        have hdb : dbTree (XTree.mk i tg
            (((cs, a) : Counters × List (String × String)).snd)
            ((diKids (((cs, a) : Counters × List (String × String)).fst) ks).snd)) =
            XTree.mk i tg (if tg = "node" then dbApply a else a)
              (dbKids (diKids cs ks).snd) := rfl
        rw [hdb] at h
        simp only [if_neg htg] at h
        rw [XTree.iterNodes] at h
        simp only [if_neg htg, List.nil_append] at h
        exact c4_everyK cs ks n h
theorem c4_everyK : ∀ (cs : Counters) (ks : XKids) (n : XTree),
    n ∈ XKids.iterNodes (dbKids (diKids cs ks).snd) → c4Prop n
  | cs, .nil, n, h => by
      simp [diKids, dbKids, XKids.iterNodes] at h
  | cs, .cons t ts, n, h => by
      have hshape : XKids.iterNodes (dbKids (diKids cs (XKids.cons t ts)).snd) =
          (dbTree (diTree cs t).snd).iterNodes ++
          XKids.iterNodes (dbKids (diKids (diTree cs t).fst ts).snd) := rfl
      rw [hshape] at h
      rcases List.mem_append.mp h with h1 | h2
      · exact c4_everyT cs t n h1
      · exact c4_everyK (diTree cs t).fst ts n h2
end

/-- C4 counterexample: after preprocess, the node whose resource-id starts
with com.google.android carries no resource-id-index at all despite a
nonempty resource-id, and the node with inverted bounds gets the negative
width -40, so the claimed invariant fails as stated. -/
theorem C4_counterexample_skipped_index_and_negative_w :
    ((preprocess c4Tree).iterNodes.map (fun n => attrOpt n "resource-id-index")) =
      [none, some "0"] ∧
    ((preprocess c4Tree).iterNodes.map (fun n => attrOpt n "resource-id")) =
      [some "com.google.android.gms", some "r"] ∧
    ((preprocess c4Tree).iterNodes.map (fun n => attrOpt n "w")) =
      [some "10", some "-40"] := by
  refine ⟨by decide, by decide, by decide⟩

/-- C4 amended: every node of a preprocessed tree satisfies the amended
invariant c4Prop: the denoted x and y hold the parsed top-left corner, w
and h the corner differences exactly as written over the nonnegative
parsed corners, with no sign guarantee on w or h, and every node not
skipped by the com.google.android rule carries, for each indexed
attribute, an index attribute holding some natural number when the value
is nonempty and -1 when it is empty. -/
theorem C4_amended_preprocess_invariants (t : XTree) :
    ∀ n ∈ (preprocess t).iterNodes, c4Prop n := by
  intro n h
  exact c4_everyT (fun _ _ => 0) (remove_node t
    (fun n => attrOpt n "package" = some "com.android.systemui")) n h

/-- C4 witness: the amended invariant applied to the second node of the
preprocessed counterexample tree. -/
theorem C4_amended_witness :
    c4Prop (((preprocess c4Tree).iterNodes.drop 1).headD (XTree.mk 0 "" [] .nil)) :=
  C4_amended_preprocess_invariants c4Tree _ (by decide)

theorem foldl_preserve {α β : Type _} (f : β → α → β) (P : β → Prop)
    (l : List α) (b : β) (hb : P b) (hf : ∀ b a, P b → P (f b a)) :
    P (l.foldl f b) := by
  induction l generalizing b with
  | nil => exact hb
  | cons x xs ih => exact ih (f b x) (hf b x hb)

theorem mem_newSideIds_children {new : LayoutM} {c : XTree} (h : c ∈ new.children) :
    c.nid ∈ newSideIds new :=
  List.mem_append.mpr (Or.inl (List.mem_append.mpr (Or.inl (List.mem_map_of_mem _ h))))

theorem mem_newSideIds_nonOverlap {new : LayoutM} {q : XTree × XTree}
    (h : q ∈ new.nonOverlap) : q.fst.nid ∈ newSideIds new :=
  List.mem_append.mpr (Or.inl (List.mem_append.mpr (Or.inr (List.mem_map.mpr ⟨q, h, rfl⟩))))

theorem mem_newSideIds_unique {new : LayoutM} {c : XTree} (h : c ∈ new.uniqueChildren) :
    c.nid ∈ newSideIds new :=
  List.mem_append.mpr (Or.inr (List.mem_map_of_mem _ h))

theorem commitPair_inv {old new : LayoutM} {st : MSt} (o c : XTree)
    (hc : c.nid ∈ newSideIds new) (h : sideInv old new st) :
    sideInv old new (commitPair st o c) := by
  refine ⟨h.1, h.2.1, ?_, h.2.2.2⟩
  intro p hp
  rcases List.mem_append.mp hp with hp1 | hp2
  · exact h.2.2.1 p hp1
  · have hpe : p = (o, c) := by simpa using hp2
    subst hpe
    exact hc

theorem match_sibling_inv {old new : LayoutM} (o c : XTree) (st : MSt)
    (h : sideInv old new st) : sideInv old new (match_sibling o c st) := by
  unfold match_sibling
  dsimp only
  split
  · exact h
  · apply foldl_preserve _ (sideInv old new)
    · exact ⟨h.1, h.2.1, h.2.2.1, h.2.2.2⟩
    · intro b x hb
      dsimp only
      split
      · exact hb
      · split
        · next c2 heq =>
            have hc1 : c2 ∈ (List.filter
                (fun p => p.snd.nid = ((pairFind st.fst.new.nonOverlap c.nid).getD c).nid
                  && p.fst.nid ≠ c.nid) st.fst.new.nonOverlap).map Prod.fst :=
              List.mem_of_mem_filter (by rw [heq]; exact List.mem_singleton_self c2)
            rcases List.mem_map.mp hc1 with ⟨q, hq, hqe⟩
            have hq2 : q ∈ new.nonOverlap := by
              rw [← h.2.1]
              exact List.mem_of_mem_filter hq
            exact commitPair_inv x c2 (hqe ▸ mem_newSideIds_nonOverlap hq2) hb
        · exact hb

theorem foldl_preserve_mem {α β : Type _} (f : β → α → β) (P : β → Prop)
    (l : List α) (b : β) (hb : P b) (hf : ∀ b a, a ∈ l → P b → P (f b a)) :
    P (l.foldl f b) := by
  induction l generalizing b with
  | nil => exact hb
  | cons x xs ih =>
      exact ih (f b x) (hf b x (List.mem_cons_self x xs) hb)
        (fun b2 a ha hb2 => hf b2 a (List.mem_cons_of_mem x ha) hb2)

theorem matchSurePass_inv {old new : LayoutM} (pred : XTree → XTree → Bool)
    (oldCands newCands : List XTree)
    (hcands : ∀ x ∈ newCands, x.nid ∈ newSideIds new) (st : MSt)
    (h : sideInv old new st) : sideInv old new (matchSurePass pred oldCands newCands st).fst := by
  unfold matchSurePass
  have H : (fun acc : MSt × Bool => sideInv old new acc.fst) (st, false) := h
  refine foldl_preserve _ (fun acc : MSt × Bool => sideInv old new acc.fst) _ _ H ?_
  intro b x hb
  dsimp only
  split
  · exact hb
  · split
    · next c2 heq =>
        have hc0 : c2 ∈ [c2] := List.mem_singleton_self c2
        rw [← heq] at hc0
        have hc1 := List.mem_of_mem_filter hc0
        exact match_sibling_inv x c2 _ (commitPair_inv x c2 (hcands c2 hc1) hb)
    · exact hb

theorem matchSureLoop_inv {old new : LayoutM} (pred : XTree → XTree → Bool)
    (oldCands newCands : List XTree)
    (hcands : ∀ x ∈ newCands, x.nid ∈ newSideIds new) :
    ∀ (fuel : Nat) (st : MSt), sideInv old new st →
      sideInv old new (matchSureLoop pred oldCands newCands fuel st) := by
  intro fuel
  induction fuel with
  | zero => intro st h; exact h
  | succ g ih =>
      intro st h
      rw [matchSureLoop]
      rcases hq : matchSurePass pred oldCands newCands st with ⟨st2, upd⟩
      have h2 : sideInv old new st2 := by
        have h3 := matchSurePass_inv pred oldCands newCands hcands st h
        rw [hq] at h3
        exact h3
      cases upd
      · exact h2
      · exact ih st2 h2

theorem match_sure_inv {old new : LayoutM} (pred : XTree → XTree → Bool) (st : MSt)
    (h : sideInv old new st) : sideInv old new (match_sure pred st) := by
  unfold match_sure
  refine matchSureLoop_inv pred _ _ ?_ _ _ h
  intro x hx
  have hx2 : x ∈ new.children := by
    rw [← h.2.1]
    exact List.mem_of_mem_filter hx
  exact mem_newSideIds_children hx2

theorem siftPass_inv {old new : LayoutM} (st : MSt) (h : sideInv old new st) :
    sideInv old new (siftPass st).fst := by
  unfold siftPass
  have H : (fun acc : MSt × Bool => sideInv old new acc.fst) (st, false) := h
  refine foldl_preserve _ (fun acc : MSt × Bool => sideInv old new acc.fst) _ _ H ?_
  intro b x hb
  dsimp only
  split
  · exact hb
  · split
    · exact hb
    · split
      · next c2 heq =>
          have hc0 : c2 ∈ [c2] := List.mem_singleton_self c2
          rw [← heq] at hc0
          have hc1 := List.mem_of_mem_filter hc0
          have hc2 : c2 ∈ new.children := by rw [← hb.2.1]; exact hc1
          exact commitPair_inv x c2 (mem_newSideIds_children hc2) hb
      · exact hb

theorem siftLoop_inv {old new : LayoutM} :
    ∀ (fuel : Nat) (st : MSt), sideInv old new st → sideInv old new (siftLoop fuel st) := by
  intro fuel
  induction fuel with
  | zero => intro st h; exact h
  | succ g ih =>
      intro st h
      rw [siftLoop]
      rcases hq : siftPass st with ⟨st2, upd⟩
      have h2 : sideInv old new st2 := by
        have h3 := siftPass_inv st h
        rw [hq] at h3
        exact h3
      cases upd
      · exact h2
      · exact ih st2 h2

theorem sift_match_inv {old new : LayoutM} (st : MSt) (h : sideInv old new st) :
    sideInv old new (sift_match st) :=
  siftLoop_inv _ st h

theorem match_parents_inv {old new : LayoutM} (pred : XTree → XTree → Bool) (st : MSt)
    (h : sideInv old new st) : sideInv old new (match_parents pred st) := by
  unfold match_parents
  have H : (fun acc : MSt × List Nat => sideInv old new acc.fst) (st, []) := h
  refine foldl_preserve _ (fun acc : MSt × List Nat => sideInv old new acc.fst) _ _ H ?_
  intro b x hb
  dsimp only
  split
  · exact hb
  · split
    · exact ⟨hb.1, hb.2.1, hb.2.2.1, hb.2.2.2⟩
    · exact hb

theorem optimize_match_inv {old new : LayoutM} (pred : XTree → XTree → Bool) (st : MSt)
    (h : sideInv old new st) : sideInv old new (optimize_match pred st) := by
  unfold optimize_match
  refine foldl_preserve _ (sideInv old new) _ _ h ?_
  intro b pr hb
  dsimp only
  refine foldl_preserve _ (sideInv old new) _ _ hb ?_
  intro b2 x hb2
  dsimp only
  split
  · exact hb2
  · split
    · next c2 heq =>
        have hc0 : c2 ∈ [c2] := List.mem_singleton_self c2
        rw [← heq] at hc0
        have hc1 := List.mem_of_mem_filter hc0
        have hc2 : idsContain b.fst.new.children c2.nid = true := by
          have hmf := List.mem_filter.mp hc1
          simpa using hmf.2
        have hc3 : c2.nid ∈ new.children.map XTree.nid := by
          rw [← hb.2.1]
          rcases List.any_eq_true.mp hc2 with ⟨y, hy, hyy⟩
          have hyn : y.nid = c2.nid := by simpa using hyy
          exact hyn ▸ List.mem_map_of_mem _ hy
        exact commitPair_inv x c2 (List.mem_append.mpr
          (Or.inl (List.mem_append.mpr (Or.inl hc3)))) hb2
    · exact hb2

theorem unique_match_inv {old new : LayoutM} (st : MSt) (h : sideInv old new st) :
    sideInv old new (unique_match st) := by
  unfold unique_match
  refine foldl_preserve _ (sideInv old new) _ _ h ?_
  intro b x hb
  dsimp only
  split
  · exact hb
  · split
    · next c2 heq =>
        have hc0 : c2 ∈ [c2] := List.mem_singleton_self c2
        rw [← heq] at hc0
        have hc1 := List.mem_of_mem_filter hc0
        have hc2 : c2 ∈ new.uniqueChildren := by rw [← hb.2.1]; exact hc1
        exact commitPair_inv x c2 (mem_newSideIds_unique hc2) hb
    · exact hb

theorem get_unique_possible_mem {attr : String} {o c : XTree} {cands : List XTree}
    (h : get_unique_possible attr o cands = some c) : c ∈ cands := by
  unfold get_unique_possible at h
  dsimp only at h
  split at h
  · split at h
    · next c2 heq =>
        injection h with h
        have hc0 : c2 ∈ [c2] := List.mem_singleton_self c2
        rw [← heq] at hc0
        rw [← h]
        exact List.mem_of_mem_filter hc0
    · exact absurd h (by simp)
  · exact absurd h (by simp)

theorem match_possible_inv {old new : LayoutM} (pred : XTree → XTree → Bool) (st : MSt)
    (h : sideInv old new st) : sideInv old new (match_possible pred st) := by
  unfold match_possible
  refine foldl_preserve_mem _ (sideInv old new) _ _ h ?_
  intro b x hxmem hb
  dsimp only
  split
  · exact hb
  · split
    · split
      · next c2 hch =>
          have hc1 : c2 ∈ b.fst.new.children.filter (fun n =>
              ! b.fst.matched.contains n.nid && pred x n) := by
            split at hch
            · next hg => injection hch with hch; subst hch; exact get_unique_possible_mem hg
            · split at hch
              · next hg => injection hch with hch; subst hch; exact get_unique_possible_mem hg
              · split at hch
                · next hg =>
                    split at hch
                    · exact absurd hch (by simp)
                    · injection hch with hch; subst hch; exact get_unique_possible_mem hg
                · exact absurd hch (by simp)
          have hc2 : c2 ∈ new.children := by
            rw [← hb.2.1]
            exact List.mem_of_mem_filter hc1
          exact commitPair_inv x c2 (mem_newSideIds_children hc2) hb
      · refine ⟨hb.1, hb.2.1, hb.2.2.1, ?_⟩
        intro q hq
        rcases List.mem_append.mp hq with hq1 | hq2
        · exact hb.2.2.2 q hq1
        · have hqe := List.mem_singleton.mp hq2
          subst hqe
          have hx2 : x ∈ old.children := by
            rw [← h.1]
            exact hxmem
          exact List.mem_map_of_mem _ hx2
    · exact hb

theorem pipeline_inv (old new : LayoutM) (pts : List (KeyPt × KeyPt)) :
    sideInv old new (pipelineState old new pts) :=
  match_possible_inv _ _
    (unique_match_inv _
      (optimize_match_inv _ _
        (match_parents_inv _ _
          (sift_match_inv _
            (match_sure_inv _ _
              (match_sure_inv _ _ ⟨rfl, rfl, by simp, by simp⟩))))))

theorem match_layout_as_finalize (old new : LayoutM) (pts : List (KeyPt × KeyPt)) :
    match_layout old new pts = set_match_score (set_not_match (pipelineState old new pts)).snd :=
  rfl

theorem set_match_score_bounds (r : ResultM) :
    0 ≤ (set_match_score r).score ∧ (set_match_score r).score ≤ 1 := by
  have hsc : (set_match_score r).score =
      (if r.matched.length + r.possible.length + r.oldNotMatched.length ≠ 0 then
        ((r.matched.length + r.possible.length : ℕ) : ℚ) /
          ((r.matched.length + r.possible.length + r.oldNotMatched.length : ℕ) : ℚ)
      else 0) := rfl
  rw [hsc]
  split
  · next hne =>
    constructor
    · apply div_nonneg
      · exact_mod_cast Nat.zero_le _
      · exact_mod_cast Nat.zero_le _
    · rw [div_le_one (by exact_mod_cast Nat.pos_of_ne_zero hne)]
      exact_mod_cast Nat.le_add_right _ _
  · exact ⟨le_refl 0, by norm_num⟩

theorem finalize_matched (s : MSt) :
    (set_match_score (set_not_match s).snd).matched = s.snd.matched := rfl

theorem finalize_possible (s : MSt) :
    (set_match_score (set_not_match s).snd).possible = s.snd.possible := rfl

theorem finalize_oldNotMatched (s : MSt) :
    (set_match_score (set_not_match s).snd).oldNotMatched =
      s.fst.old.children.filter (fun x =>
        ! (s.snd.matched.any (fun p => p.fst.nid = x.nid))
        && ! (s.snd.possible.any (fun p => p.fst.nid = x.nid))) := rfl

theorem finalize_newNotMatched (s : MSt) :
    (set_match_score (set_not_match s).snd).newNotMatched =
      s.fst.new.children.filter (fun x =>
        ! (s.snd.matched.any (fun p => p.snd.nid = x.nid))
        && ! idsContain (s.snd.possible.flatMap Prod.snd) x.nid) := rfl

theorem finalize_score (s : MSt) :
    (set_match_score (set_not_match s).snd).score =
      (if s.snd.matched.length + s.snd.possible.length +
          (s.fst.old.children.filter (fun x =>
            ! (s.snd.matched.any (fun p => p.fst.nid = x.nid))
            && ! (s.snd.possible.any (fun p => p.fst.nid = x.nid)))).length ≠ 0 then
        ((s.snd.matched.length + s.snd.possible.length : ℕ) : ℚ) /
          ((s.snd.matched.length + s.snd.possible.length +
            (s.fst.old.children.filter (fun x =>
              ! (s.snd.matched.any (fun p => p.fst.nid = x.nid))
              && ! (s.snd.possible.any (fun p => p.fst.nid = x.nid)))).length : ℕ) : ℚ)
      else 0) := rfl

theorem finalize_isMatch (s : MSt) :
    (set_match_score (set_not_match s).snd).isMatch =
      decide ((set_match_score (set_not_match s).snd).score ≥ (8 : ℚ) / 10) := rfl

/-- C3: after the finalize phase, old_not_matched is exactly the old
children outside the matched and possible keys, new_not_matched is
exactly the new children outside the matched values and the union of the
possible sets, the score is the stated quotient with a zero denominator
giving zero, and is_match holds exactly at scores of at least 0.8. -/
theorem C3_finalize_equations (old new : LayoutM) (pts : List (KeyPt × KeyPt)) :
    (match_layout old new pts).oldNotMatched = old.children.filter (fun x =>
      ! ((match_layout old new pts).matched.any (fun p => p.fst.nid = x.nid))
      && ! ((match_layout old new pts).possible.any (fun p => p.fst.nid = x.nid))) ∧
    (match_layout old new pts).newNotMatched = new.children.filter (fun x =>
      ! ((match_layout old new pts).matched.any (fun p => p.snd.nid = x.nid))
      && ! idsContain ((match_layout old new pts).possible.flatMap Prod.snd) x.nid) ∧
    ((match_layout old new pts).matched.length + (match_layout old new pts).possible.length +
        (match_layout old new pts).oldNotMatched.length ≠ 0 →
      (match_layout old new pts).score =
        (((match_layout old new pts).matched.length +
            (match_layout old new pts).possible.length : ℕ) : ℚ) /
          (((match_layout old new pts).matched.length +
            (match_layout old new pts).possible.length +
            (match_layout old new pts).oldNotMatched.length : ℕ) : ℚ)) ∧
    ((match_layout old new pts).matched.length + (match_layout old new pts).possible.length +
        (match_layout old new pts).oldNotMatched.length = 0 →
      (match_layout old new pts).score = 0) ∧
    ((match_layout old new pts).isMatch = true ↔
      (match_layout old new pts).score ≥ (8 : ℚ) / 10) := by
  have hInv := pipeline_inv old new pts
  rw [match_layout_as_finalize old new pts]
  generalize hgen : pipelineState old new pts = s
  rw [hgen] at hInv
  simp only [finalize_matched, finalize_possible, finalize_oldNotMatched,
    finalize_newNotMatched, finalize_isMatch, finalize_score]
  simp only [hInv.1, hInv.2.1]
  refine ⟨trivial, trivial, ?_, ?_, ?_⟩
  · intro hne
    rw [if_pos hne]
  · intro hz
    rw [if_neg (by simp [hz])]
  · exact decide_eq_true_iff

/-- C2 amended: the score of every match result lies in the unit
interval, and, whenever the node identities of the two layouts are
disjoint, every matched value differs from every old-side key of
possible; the original stronger claim, that matched values also avoid the
union of the possible candidate sets, fails on the code. -/
theorem C2_amended_score_and_key_disjointness (old new : LayoutM)
    (pts : List (KeyPt × KeyPt)) :
    (0 ≤ (match_layout old new pts).score ∧ (match_layout old new pts).score ≤ 1) ∧
    ((∀ i ∈ newSideIds new, i ∉ oldChildIds old) →
      ∀ p ∈ (match_layout old new pts).matched, ∀ q ∈ (match_layout old new pts).possible,
        p.snd.nid ≠ q.fst.nid) := by
  have hInv := pipeline_inv old new pts
  rw [match_layout_as_finalize old new pts]
  generalize hgen : pipelineState old new pts = s
  rw [hgen] at hInv
  constructor
  · exact set_match_score_bounds _
  · intro hdisj p hp q hq heq
    rw [finalize_matched] at hp
    rw [finalize_possible] at hq
    exact hdisj p.snd.nid (hInv.2.2.1 p hp) (heq ▸ hInv.2.2.2 q hq)

/-- C2 witness: the amended statement applied to the counterexample
layouts, whose node identities are disjoint across sides. -/
theorem C2_amended_witness :
    (0 ≤ c2Result.score ∧ c2Result.score ≤ 1) ∧
    (∀ p ∈ c2Result.matched, ∀ q ∈ c2Result.possible, p.snd.nid ≠ q.fst.nid) := by
  have H := C2_amended_score_and_key_disjointness (mkLayout c2OldTree) (mkLayout c2NewTree) []
  exact ⟨H.1, H.2 (by decide)⟩

/-- C7: in single-step match, when the recorded widget is found by the
locator in the base layout and appears as a key of the match result's
matched map, a failed perform of the rewritten event quits as fatal with
exit code -1; a successful perform with canonically equal before and
after trees advances the pointer by the offset without appending; and a
successful perform with unequal trees appends the rewritten step and
advances by the offset. -/
theorem C7_match_branch_behaviour (step : StepM) (offset : Nat)
    (base live after : LayoutM) (liveUi afterUi : UiM)
    (pts : List (KeyPt × KeyPt)) (loc : Locator) (oldChild target : XTree)
    (ha : step.event.is_assertion = false)
    (hl : step.event.locator = some loc)
    (hfind : loc.find_in_layout base.root = .ok (some oldChild))
    (hmatch : pairFind (match_layout base live pts).matched oldChild.nid = some target) :
    repair_match step offset base live liveUi pts false after afterUi =
      { exitCode := some (-1) } ∧
    (tree_equal live.root after.root = true →
      repair_match step offset base live liveUi pts true after afterUi =
        { delta := offset, retVal := some true }) ∧
    (tree_equal live.root after.root = false →
      repair_match step offset base live liveUi pts true after afterUi =
        { appended := [{ event := { step.event with locator := some (Locator.from_node target) },
                         ui_before := liveUi, ui_after := afterUi }],
          delta := offset, retVal := some true }) := by
  refine ⟨?_, ?_, ?_⟩
  · simp [repair_match, ha, hl, hfind, hmatch]
  · intro ht
    simp [repair_match, ha, hl, hfind, hmatch, ht]
  · intro ht
    simp [repair_match, ha, hl, hfind, hmatch, ht]

/-- C7 witness: the branch behaviour at a concrete step, base and live
layouts; the first application exercises the fatal and append branches,
the second, with an unchanged post-perform capture, the skip branch. -/
theorem C7_witness :
    repair_match c7Step 3 c7Base c7Live c7UiLive [] false c7After c7UiAfter =
      { exitCode := some (-1) } ∧
    repair_match c7Step 3 c7Base c7Live c7UiLive [] true c7After c7UiAfter =
      { appended := [{ event := { c7Step.event with
                                  locator := some (Locator.from_node c7Target) },
                       ui_before := c7UiLive, ui_after := c7UiAfter }],
        delta := 3, retVal := some true } ∧
    repair_match c7Step 3 c7Base c7Live c7UiLive [] true c7Live c7UiAfter =
      { delta := 3, retVal := some true } := by
  have H1 := C7_match_branch_behaviour c7Step 3 c7Base c7Live c7After c7UiLive c7UiAfter
    [] c7Loc c7OldChild c7Target (by decide) rfl (by decide) (by decide)
  have H2 := C7_match_branch_behaviour c7Step 3 c7Base c7Live c7Live c7UiLive c7UiAfter
    [] c7Loc c7OldChild c7Target (by decide) rfl (by decide) (by decide)
  exact ⟨H1.1, H1.2.2 (by decide), H2.2.1 (by decide)⟩

/-- C3 witness: the finalize equations applied at concrete layouts with a
nonzero denominator; the score quotient and the is_match reading follow. -/
theorem C3_witness :
    (match_layout c7Base c7Live []).score =
      (((match_layout c7Base c7Live []).matched.length +
          (match_layout c7Base c7Live []).possible.length : ℕ) : ℚ) /
        (((match_layout c7Base c7Live []).matched.length +
          (match_layout c7Base c7Live []).possible.length +
          (match_layout c7Base c7Live []).oldNotMatched.length : ℕ) : ℚ) ∧
    ((match_layout c7Base c7Live []).isMatch = true ↔
      (match_layout c7Base c7Live []).score ≥ (8 : ℚ) / 10) := by
  have H := C3_finalize_equations c7Base c7Live []
  exact ⟨H.2.2.1 (by decide), H.2.2.2.2⟩
